import Mathlib

/-!
Verification of the adb-device-watch repository against its natural-language
specification.  Each section embeds the relevant source functions as Lean
definitions (pure functions of their inputs; the I/O of the original is made
explicit as value-passing), and the theorems at the end of the file settle the
frozen claims C1..C10.

Machine integers are modelled as `Nat` with explicit reduction modulo `2 ^ w`
at the operations where C/C++ wraps.  Strings on the wire are modelled as
`List Char`; raw bytes as `Nat` values below 256.
-/

/-! ## Smart-socket framing (src/adb-client/co-adb-client.cc)

`send_protocol_string` stores the payload size into an `unsigned int`
(truncation modulo `2 ^ 32`) and transmits a service string as an ASCII frame
`"%04x%s"`: the truncated payload length as lowercase hex, zero-padded to a
minimum of four characters (std::format emits more than four characters when
the value does not fit), followed by the whole payload.
`read_protocol_string` reads exactly 4 bytes, parses them as base-16 and then
reads that many payload bytes.
-/

namespace AdbProto

/-- MAX_PAYLOAD = 1024 * 1024 (co-adb-client.cc line 73). -/
def MAX_PAYLOAD : Nat := 1024 * 1024

/-- Lowercase hex digit for a value below 16 (std::format `x` presentation). -/
def hexChar (d : Nat) : Char :=
  if d = 0 then '0' else if d = 1 then '1' else if d = 2 then '2'
  else if d = 3 then '3' else if d = 4 then '4' else if d = 5 then '5'
  else if d = 6 then '6' else if d = 7 then '7' else if d = 8 then '8'
  else if d = 9 then '9' else if d = 10 then 'a' else if d = 11 then 'b'
  else if d = 12 then 'c' else if d = 13 then 'd' else if d = 14 then 'e'
  else 'f'

/-- Value of a hex digit character, `none` for a non-hex character. -/
def hexVal (c : Char) : Option Nat :=
  if c = '0' then some 0 else if c = '1' then some 1 else if c = '2' then some 2
  else if c = '3' then some 3 else if c = '4' then some 4 else if c = '5' then some 5
  else if c = '6' then some 6 else if c = '7' then some 7 else if c = '8' then some 8
  else if c = '9' then some 9 else if c = 'a' then some 10 else if c = 'b' then some 11
  else if c = 'c' then some 12 else if c = 'd' then some 13 else if c = 'e' then some 14
  else if c = 'f' then some 15 else none

/-- Little-endian base-16 digit list of `n`; the first argument is structural
fuel (`n + 1` is always enough, see `hexDigitsRev_ofDigits`). -/
def hexDigitsRev : Nat → Nat → List Nat
  | 0, _ => []
  | fuel + 1, n => if n = 0 then [] else n % 16 :: hexDigitsRev fuel (n / 16)

/-- Value of a little-endian base-16 digit list. -/
def ofDigitsLE : List Nat → Nat
  | [] => 0
  | d :: ds => d + 16 * ofDigitsLE ds

/-- The lowercase hex rendering of `n` with no padding (what std::format
produces before width adjustment); `0` renders as `"0"`. -/
def hexChars (n : Nat) : List Char :=
  if n = 0 then ['0'] else ((hexDigitsRev n n).reverse.map hexChar)

/-- std::format `"%04x"` of `n`: lowercase hex, zero-padded on the left to a
minimum width of 4; values of 0x10000 and above render with more than four
characters. -/
def formatHex4 (n : Nat) : List Char :=
  List.replicate (4 - (hexChars n).length) '0' ++ hexChars n

/-- `send_protocol_string` (co-adb-client.cc lines 82-91): the payload size
is stored into `unsigned int length` — a truncation modulo `2 ^ 32` that
happens BEFORE both the bound check and the prefix format.  Payloads whose
truncated length exceeds MAX_PAYLOAD - 4 fail with the protocol error
"message too big" and nothing is transmitted; otherwise the transmitted
frame — the truncated length as the hex prefix, then the whole payload — is
returned. -/
def sendProtocolString (s : List Char) : Except String (List Char) :=
  let length := s.length % 2 ^ 32
  if length > MAX_PAYLOAD - 4 then .error "message too big"
  else .ok (formatHex4 length ++ s)

/-- Base-16 parse of a digit sequence, accumulator style (the behaviour of
std::stoul base 16 on an all-hex-digit string). -/
def parseHexAcc : Nat → List Char → Option Nat
  | acc, [] => some acc
  | acc, c :: cs =>
    match hexVal c with
    | none => none
    | some v => parseHexAcc (acc * 16 + v) cs

/-- `read_protocol_string` (co-adb-client.cc lines 93-105): read exactly 4
bytes, parse them base-16, then read that many payload bytes.  `none` models
a read failure (closed connection / non-hex prefix). -/
def readProtocolString (input : List Char) : Option (List Char) :=
  if input.length < 4 then none
  else
    match parseHexAcc 0 (input.take 4) with
    | none => none
    | some len =>
      if (input.drop 4).length < len then none
      else some ((input.drop 4).take len)

end AdbProto

/-! ## Transport selection (src/adb-client/co-adb-client.cc)

`switch_socket_transport` sends one selector service string, reads the
status, and — unless the selector was the transport-id form — reads 8
little-endian bytes carrying the assigned transport id.  We model the
function as the trace of protocol actions it performs.
-/

namespace AdbProto

/-- TransportType (adb-client.h lines 51-55). -/
inductive TransportType where
  | Any
  | Usb
  | Local
deriving DecidableEq, Repr

/-- TransportOption (adb-client.h lines 57-64). -/
structure TransportOption where
  server : String := ""
  port : String := ""
  serial : String := ""
  transportType : TransportType := .Any
  transportId : Option Int := none
  launchServerIfNeed : Bool := true
deriving DecidableEq, Repr

/-- One protocol-level action of the client on the smart socket. -/
inductive ProtoAct where
  /-- send one length-prefixed service string -/
  | send (s : List Char)
  /-- read the 4-byte OKAY/FAIL status -/
  | readStatus
  /-- read exactly 8 little-endian bytes (the assigned transport id) -/
  | readLE8
deriving DecidableEq, Repr

/-- `switch_socket_transport` (co-adb-client.cc lines 126-150) as the ordered
trace of protocol actions it performs: the selector chosen by the if-chain,
the status read, and the conditional 8-byte transport-id read. -/
def switchSocketTransport (o : TransportOption) : List ProtoAct :=
  (match o.transportId with
   | some n => [ProtoAct.send ("host:transport-id:".toList ++ (toString n).toList)]
   | none =>
     if o.serial ≠ "" then
       [ProtoAct.send ("host:tport:serial:".toList ++ o.serial.toList)]
     else if o.transportType = TransportType.Usb then
       [ProtoAct.send "host:tport:usb".toList]
     else if o.transportType = TransportType.Local then
       [ProtoAct.send "host:tport:local".toList]
     else
       [ProtoAct.send "host:tport:any".toList])
  ++ [ProtoAct.readStatus]
  ++ (match o.transportId with
      | some _ => []
      | none => [ProtoAct.readLE8])

/-- The selector predicted by the spec's precedence table
(transport-id > serial > transport kind), written from the spec's words. -/
def specSelector (o : TransportOption) : List Char :=
  match o.transportId with
  | some n => "host:transport-id:".toList ++ (toString n).toList
  | none =>
    if o.serial ≠ "" then "host:tport:serial:".toList ++ o.serial.toList
    else
      match o.transportType with
      | .Usb => "host:tport:usb".toList
      | .Local => "host:tport:local".toList
      | .Any => "host:tport:any".toList

/-- Spec side-condition of the 8-byte read: the emitted selector is not the
`host:transport-id:` form (tested as a prefix of the emitted selector). -/
def selectorIsTransportId (sel : List Char) : Bool :=
  sel.take 18 == "host:transport-id:".toList

end AdbProto

/-! ## Connect loop and query error swallowing (src/adb-client/co-adb-client.cc)

`connect` (lines 299-341) retries the TCP connect once after launching the
ADB server, guarded by the process-wide `serverLaunchTried` flag.  `co_query`
and `co_command_query` (lines 476-522) wrap `connect` in a try/catch whose
`connection_error` handler contains an `if (!option.launchServerIfNeed)`
statement WITH AN EMPTY BODY, then fall through to `co_return ""`.
-/

namespace AdbProto

/-- Outcomes of the environment the connect loop interacts with: whether the
first TCP connect succeeds, whether a connect after a successful server
launch succeeds, and whether the server launch itself succeeds. -/
structure ConnEnv where
  firstConnect : Bool
  secondConnect : Bool
  launchOk : Bool
deriving DecidableEq, Repr

/-- Result of the connect loop: an open socket (abstracted) or a thrown
`connection_error`; in both cases the updated process-wide
`serverLaunchTried` flag is carried along. -/
inductive ConnectResult where
  | ok (tried : Bool)
  | connErr (tried : Bool)
deriving DecidableEq, Repr

/-- The connect loop of `connect` (co-adb-client.cc lines 310-327): try to
connect; on failure throw `connection_error` unless auto-launch is enabled
and has not been tried, in which case set the guard, launch the server
(failure throws), and retry the connect once (a second failure rethrows
because the guard is now set). -/
def connectLoop (env : ConnEnv) (tried : Bool) (launchServerIfNeed : Bool) : ConnectResult :=
  if env.firstConnect then .ok tried
  else if !launchServerIfNeed || tried then .connErr tried
  else if !env.launchOk then .connErr true
  else if env.secondConnect then .ok true
  else .connErr true

/-- `format_host_command` (co-adb-client.cc lines 343-364). -/
def formatHostCommand (command : List Char) (o : TransportOption) : List Char :=
  match o.transportId with
  | some n => "host-transport-id:".toList ++ (toString n).toList ++ [':'] ++ command
  | none =>
    if o.serial ≠ "" then "host-serial:".toList ++ o.serial.toList ++ [':'] ++ command
    else if o.transportType = TransportType.Usb then "host-usb:".toList ++ command
    else if o.transportType = TransportType.Local then "host-local:".toList ++ command
    else "host:".toList ++ command

/-- `co_query` (co-adb-client.cc lines 476-498).  `readResult` stands for the
outcome of `read_protocol_string` on the established connection (its errors
are not caught).  Returns the operation outcome and the updated
`serverLaunchTried` flag.  Note that the `connection_error` handler returns
the empty string REGARDLESS of `launchServerIfNeed`: the `if` statement in
the handler has an empty body. -/
def coQuery (env : ConnEnv) (tried : Bool) (o : TransportOption)
    (readResult : Except String (List Char)) : Except String (List Char) × Bool :=
  match connectLoop env tried o.launchServerIfNeed with
  | .connErr t => (.ok [], t)
  | .ok t =>
    match readResult with
    | .error e => (.error e, t)
    | .ok s => (.ok s, t)

/-- `co_command_query` (co-adb-client.cc lines 500-522): identical structure
to `co_query` with the service string built by `format_host_command`, except
that `connect` receives a DEFAULT-CONSTRUCTED `TransportOption` (line 509),
whose `launchServerIfNeed` is `true` (adb-client.h line 63) — the caller's
option feeds only the service string and the dead `if` of the
`connection_error` handler (the same empty-`if` fall-through to `""`). -/
def coCommandQuery (env : ConnEnv) (tried : Bool) (_command : List Char)
    (_o : TransportOption)
    (readResult : Except String (List Char)) : Except String (List Char) × Bool :=
  match connectLoop env tried true with
  | .connErr t => (.ok [], t)
  | .ok t =>
    match readResult with
    | .error e => (.error e, t)
    | .ok s => (.ok s, t)

end AdbProto

/-! ## Task worker queue (src/device-enumerator/task-thread.h)

`push_request_conditional` (lines 212-240) moves the whole queue aside,
re-pushes every entry in order while scanning for a duplicate, and appends
the new request only when no existing entry satisfied the predicate.
-/

namespace TaskThread

/-- One pass of the scan loop: `acc.1` is the `duplicated` flag (checked only
while still false, exactly as in the source), `acc.2` the rebuilt queue. -/
def scanStep {α : Type} (pred : α → Bool) (acc : Bool × List α) (r : α) : Bool × List α :=
  ((if acc.1 then true else pred r), acc.2 ++ [r])

/-- `task_thread::push_request_conditional` (task-thread.h lines 212-240) on
the queue contents: returns the boolean result and the new queue state. -/
def push_request_conditional {α : Type} (req : α) (pred : α → Bool) (queue : List α) :
    Bool × List α :=
  let scanned := queue.foldl (scanStep pred) (false, [])
  if scanned.1 then (false, scanned.2)
  else (true, scanned.2 ++ [req])

end TaskThread

/-! ## Sync LIST decoding (src/adb-client/co-adb-client.cc)

`sync_finish_ls` (lines 1119-1161) decodes the DENT/DNT2 stream of a LIST
request and `co_sync_list` (lines 1669-1684) returns its result unchanged.
We abstract the byte-level struct reads into a stream of wire records, each
carrying its 32-bit id word and the fields the loop uses.
-/

namespace SyncProto

/-- MKID(a,b,c,d) (co-adb-client.cc line 981): 4 ASCII characters as a
little-endian 32-bit word. -/
def mkid (a b c d : Char) : Nat :=
  a.toNat + b.toNat * 256 + c.toNat * 65536 + d.toNat * 16777216

def ID_DENT_V1 : Nat := mkid 'D' 'E' 'N' 'T'
def ID_DENT_V2 : Nat := mkid 'D' 'N' 'T' '2'
def ID_DONE : Nat := mkid 'D' 'O' 'N' 'E'

/-- One wire record of the LIST response stream: the id word, the metadata
fields used by the client, and the entry name. -/
structure DentRaw where
  id : Nat
  mode : Nat
  size : Nat
  mtime : Nat
  name : List Char
deriving DecidableEq, Repr

/-- ListItem (adb-client.h lines 91-96). -/
structure ListItem where
  name : List Char
  mode : Nat
  size : Nat
  mtime : Nat
deriving DecidableEq, Repr

/-- The fields `sync_finish_ls` copies out of a decoded entry. -/
def toItem (d : DentRaw) : ListItem :=
  { name := d.name, mode := d.mode, size := d.size, mtime := d.mtime }

/-- `sync_finish_ls<v2>` (co-adb-client.cc lines 1119-1161): loop until a
DONE id; a wrong id or a name longer than 255 bytes is a protocol error; an
exhausted stream models a failed read.  Every decoded entry is appended to
the output — there is no filtering of any name. -/
def sync_finish_ls (v2 : Bool) : List DentRaw → Except String (List ListItem)
  | [] => .error "read failed"
  | d :: rest =>
    if d.id = ID_DONE then .ok []
    else if d.id ≠ (if v2 then ID_DENT_V2 else ID_DENT_V1) then .error "unexpected dent id"
    else if d.name.length > 255 then .error "dent namelen too long"
    else (sync_finish_ls v2 rest).map (fun out => toItem d :: out)

/-- `co_sync_list` (co-adb-client.cc lines 1669-1684): opens the sync channel
and returns the result of `sync_list`, which dispatches on the `ls_v2`
feature to `sync_finish_ls`; the decoded list is returned unchanged. -/
def co_sync_list (have_ls_v2 : Bool) (stream : List DentRaw) : Except String (List ListItem) :=
  sync_finish_ls have_ls_v2 stream

/-- The entry filter of `remote_build_list` (co-adb-client.cc lines
1454-1457), the only place in the client that elides "." and ".." — used by
the recursive pull path, not by `co_sync_list`. -/
def remoteBuildListKeeps (item : ListItem) : Bool :=
  !(item.name == ".".toList || item.name == "..".toList)

end SyncProto

/-! ## Remount service selection (src/adb-client/co-adb-client.cc)

`co_remount` (lines 816-854) declares `bool remount_shell;` WITHOUT an
initializer.  It is assigned from the explicit override when one is given;
otherwise it is assigned `true` only inside the branch taken when the
feature list contains "remount_shell".  When the override is absent and the
feature is missing, the subsequent `if (remount_shell)` reads an
uninitialized value: the service issued is undefined.  `none` models that
undefined read.
-/

namespace Remount

/-- The service string `co_remount` issues, as a function of the explicit
override and the advertised feature list; `none` means the selection reads
the uninitialized `remount_shell` (undefined behaviour). -/
def coRemountService (useRemountShell : Option Bool) (features : List String)
    (args : String) : Option String :=
  match useRemountShell with
  | some b =>
    -- shell_protocol keeps its initializer `false` on this path
    if b then some ("shell:remount " ++ args) else some ("remount:" ++ args)
  | none =>
    if features.contains "remount_shell" then
      let shellProtocol := features.contains "shell_v2"
      some ((if shellProtocol then "shell,v2,raw" else "shell") ++ ":remount " ++ args)
    else
      none

end Remount

/-! ## Device interface records (src/device-enumerator)

The repository snapshot carries an older revision of `usb-watch-base.h`
(defining `DeviceNode` / `DeviceState`); the revision the .cc files compile
against — with `DeviceInterface`, `DeviceType` (including the `Serial` bit
and the composite masks) and `WatchSettings.enableAdbClient` — is not under
src/.  The bit layout below follows the old header's `DeviceState` (the spec
names the same bit set with `Serial` in place of `ComPort`).
-/

namespace DevWatch

/-- Modelled from the spec: the `DeviceType` bitmask (spec section 3), with
the numeric bit positions of the old header's `DeviceState`
(usb-watch-base.h lines 35-53).  `usbConnectedAdb = Usb ||| Adb` and
`remoteAdb = Net ||| Adb` are the two composite masks named by the spec. -/
def DeviceTypeUsb : Nat := 1
def DeviceTypeNet : Nat := 2
def DeviceTypeSerial : Nat := 4
def DeviceTypeAdb : Nat := 8
def DeviceTypeFastboot : Nat := 16
def DeviceTypeHDC : Nat := 32
def DeviceTypeDiag : Nat := 64
def DeviceTypeQDL : Nat := 128
def usbConnectedAdb : Nat := DeviceTypeUsb ||| DeviceTypeAdb
def remoteAdb : Nat := DeviceTypeNet ||| DeviceTypeAdb

/-- Modelled from the spec: `DeviceInterface` (spec section 3; the current
header is missing from src/ — field set and sentinels follow the spec and
the old header's `DeviceNode`, plus the USB class triple and `usb_if` that
`test_match` in device-watcher.h reads).  `type` is the `DeviceType` bitmask
as a `Nat`; `usbIf` is signed with negative meaning "no interface number". -/
structure DeviceInterface where
  identity : String := ""
  devpath : String := ""
  hub : String := ""
  serial : String := ""
  manufacturer : String := ""
  product : String := ""
  model : String := ""
  device : String := ""
  ip : String := ""
  port : Nat := 0
  driver : String := ""
  description : String := ""
  vid : Nat := 0
  pid : Nat := 0
  usbClass : Nat := 0
  usbSubClass : Nat := 0
  usbProto : Nat := 0
  usbIf : Int := -1
  type : Nat := 0
  off : Bool := false
deriving DecidableEq, Repr

/-- `WatchWaiter::test_match` (device-watcher.h lines 137-158), translated
clause for clause.  Note the type clause `(target.type & iface.type)`: the
C++ condition is the uint32 truthiness of the bitwise AND. -/
def test_match (target iface : DeviceInterface) : Bool :=
  (target.off == iface.off) &&
  (target.type == 0 || (target.type &&& iface.type) != 0) &&
  (target.devpath == "" || target.devpath == iface.devpath) &&
  (target.hub == "" || target.hub == iface.hub) &&
  (target.serial == "" || target.serial == iface.serial) &&
  (target.ip == "" || target.ip == iface.ip) &&
  (target.driver == "" || target.driver == iface.driver) &&
  (target.port == 0 || target.port == iface.port) &&
  (target.vid == 0 || target.vid == iface.vid) &&
  (target.pid == 0 || target.pid == iface.pid) &&
  (target.usbClass == 0 || target.usbClass == iface.usbClass) &&
  (target.usbSubClass == 0 || target.usbSubClass == iface.usbSubClass) &&
  (target.usbProto == 0 || target.usbProto == iface.usbProto) &&
  (decide (target.usbIf < 0) || target.usbIf == iface.usbIf) &&
  (target.identity == "" || (target.identity == iface.identity ||
                              target.identity == iface.devpath ||
                              target.identity == iface.hub ||
                              target.identity == iface.serial ||
                              target.identity == iface.ip ||
                              target.identity == iface.driver))

end DevWatch

/-! ## Identity digest (src/device-enumerator/usb-watch-base.cc)

`createUuid` (lines 47-51) hashes the interface id with picosha2 (SHA-256)
and hex-encodes the FIRST 16 BYTES of the 32-byte digest.  picosha2 is a
third-party header not in the repository; it is modelled here as standard
FIPS 180-4 SHA-256, which is what picosha2 implements.
-/

namespace Sha256

def M32 : Nat := 4294967296

def add32 (a b : Nat) : Nat := (a + b) % M32

/-- 32-bit right rotation. -/
def rotr32 (x n : Nat) : Nat := (x >>> n) ||| ((x <<< (32 - n)) % M32)

/-- SHA-256 round constants (fractional parts of cube roots of the first 64
primes). -/
def K : List Nat :=
  [0x428a2f98, 0x71374491, 0xb5c0fbcf, 0xe9b5dba5,
   0x3956c25b, 0x59f111f1, 0x923f82a4, 0xab1c5ed5] ++
  [0xd807aa98, 0x12835b01, 0x243185be, 0x550c7dc3,
   0x72be5d74, 0x80deb1fe, 0x9bdc06a7, 0xc19bf174] ++
  [0xe49b69c1, 0xefbe4786, 0x0fc19dc6, 0x240ca1cc,
   0x2de92c6f, 0x4a7484aa, 0x5cb0a9dc, 0x76f988da] ++
  [0x983e5152, 0xa831c66d, 0xb00327c8, 0xbf597fc7,
   0xc6e00bf3, 0xd5a79147, 0x06ca6351, 0x14292967] ++
  [0x27b70a85, 0x2e1b2138, 0x4d2c6dfc, 0x53380d13,
   0x650a7354, 0x766a0abb, 0x81c2c92e, 0x92722c85] ++
  [0xa2bfe8a1, 0xa81a664b, 0xc24b8b70, 0xc76c51a3,
   0xd192e819, 0xd6990624, 0xf40e3585, 0x106aa070] ++
  [0x19a4c116, 0x1e376c08, 0x2748774c, 0x34b0bcb5,
   0x391c0cb3, 0x4ed8aa4a, 0x5b9cca4f, 0x682e6ff3] ++
  [0x748f82ee, 0x78a5636f, 0x84c87814, 0x8cc70208,
   0x90befffa, 0xa4506ceb, 0xbef9a3f7, 0xc67178f2]

/-- SHA-256 initial hash value. -/
def H0 : List Nat :=
  [0x6a09e667, 0xbb67ae85, 0x3c6ef372, 0xa54ff53a,
   0x510e527f, 0x9b05688c, 0x1f83d9ab, 0x5be0cd19]

/-- FIPS 180-4 padding: append 0x80, zero bytes to 56 mod 64, then the
64-bit big-endian bit length. -/
def pad (msg : List Nat) : List Nat :=
  let len := msg.length
  let zeroes := (64 - (len + 9) % 64) % 64
  let bitLen := len * 8
  msg ++ [0x80] ++ List.replicate zeroes 0 ++
    [bitLen / 2 ^ 56 % 256, bitLen / 2 ^ 48 % 256, bitLen / 2 ^ 40 % 256,
     bitLen / 2 ^ 32 % 256, bitLen / 2 ^ 24 % 256, bitLen / 2 ^ 16 % 256,
     bitLen / 2 ^ 8 % 256, bitLen % 256]

/-- Big-endian 32-bit words of a byte list. -/
def toWordsBE : List Nat → List Nat
  | b0 :: b1 :: b2 :: b3 :: rest =>
    (b0 * 16777216 + b1 * 65536 + b2 * 256 + b3) :: toWordsBE rest
  | _ => []

/-- Message-schedule extension to 64 words. -/
def extend (w : List Nat) : Nat → List Nat
  | 0 => w
  | k + 1 =>
    let i := w.length
    let w15 := w.getD (i - 15) 0
    let w2 := w.getD (i - 2) 0
    let s0 := rotr32 w15 7 ^^^ rotr32 w15 18 ^^^ (w15 >>> 3)
    let s1 := rotr32 w2 17 ^^^ rotr32 w2 19 ^^^ (w2 >>> 10)
    extend (w ++ [(w.getD (i - 16) 0 + s0 + w.getD (i - 7) 0 + s1) % M32]) k

/-- One compression round. -/
def round (st : List Nat) (kw : Nat × Nat) : List Nat :=
  let a := st.getD 0 0
  let b := st.getD 1 0
  let c := st.getD 2 0
  let d := st.getD 3 0
  let e := st.getD 4 0
  let f := st.getD 5 0
  let g := st.getD 6 0
  let h := st.getD 7 0
  let s1 := rotr32 e 6 ^^^ rotr32 e 11 ^^^ rotr32 e 25
  let ch := (e &&& f) ^^^ ((M32 - 1 - e) &&& g)
  let t1 := (h + s1 + ch + kw.1 + kw.2) % M32
  let s0 := rotr32 a 2 ^^^ rotr32 a 13 ^^^ rotr32 a 22
  let mj := (a &&& b) ^^^ (a &&& c) ^^^ (b &&& c)
  let t2 := (s0 + mj) % M32
  [add32 t1 t2, a, b, c, add32 d t1, e, f, g]

/-- Compress one 64-byte chunk into the running hash state. -/
def compress (h : List Nat) (chunk : List Nat) : List Nat :=
  let w := extend (toWordsBE chunk) 48
  let st := (K.zip w).foldl round h
  (h.zip st).map fun p => add32 p.1 p.2

/-- Split into 64-byte chunks (structural fuel: the list length). -/
def chunksAux : Nat → List Nat → List (List Nat)
  | 0, _ => []
  | fuel + 1, l => if l.isEmpty then [] else l.take 64 :: chunksAux fuel (l.drop 64)

/-- Split into 64-byte chunks. -/
def chunks (l : List Nat) : List (List Nat) := chunksAux l.length l

/-- SHA-256 digest (32 bytes) of a byte list. -/
def sha256 (msg : List Nat) : List Nat :=
  let h := (chunks (pad msg)).foldl compress H0
  h.flatMap fun w => [w / 16777216 % 256, w / 65536 % 256, w / 256 % 256, w % 256]

end Sha256

namespace DevWatch

/-- picosha2::bytes_to_hex_string: two lowercase hex characters per byte. -/
def bytesToHexString (bs : List Nat) : String :=
  String.mk (bs.flatMap fun b => [AdbProto.hexChar (b / 16 % 16), AdbProto.hexChar (b % 16)])

/-- `createUuid` (usb-watch-base.cc lines 47-51): SHA-256 of the interface
id, hex encoding of `hash.begin() .. hash.begin() + 16`, i.e. of the first
16 of the 32 digest bytes.  The interface id is hashed as its bytes; ids are
ASCII, so `Char.toNat` agrees with the UTF-8 bytes the original hashes. -/
def createUuid (interface_id : String) : String :=
  bytesToHexString ((Sha256.sha256 (interface_id.toList.map Char.toNat)).take 16)

end DevWatch

/-! ## Reconciliation engine (src/device-enumerator/usb-watch-base.cc)

The engine state visible to the claims: the `adb_serials_` list, the
`cached_interfaces_` map, the worker's request queue and the ordered list of
records emitted to the user callback.  The single-threaded worker mutates
the state exactly as the source does; each periodic wake is one
`runStep` with that wake's `adb_list_devices` outcome as input.
-/

namespace DevWatch

/-- `WatchSettings` as used by usb-watch-base.cc: the filter lists and the
ADB-client toggle (`enableAdbClient` is read at lines 129, 164, 197; the
field itself is in the missing current header — spec section 3 names it the
"Enable-ADB-client toggle"). -/
structure WatchSettings where
  typeFilters : List Nat := []
  includeVids : List Nat := []
  excludeVids : List Nat := []
  includePids : List Nat := []
  excludePids : List Nat := []
  drivers : List String := []
  enableAdbClient : Bool := false
deriving DecidableEq, Repr

/-- `checkTypeFilter` (usb-watch-base.cc lines 73-78): empty list, or some
filter mask entirely contained in the record's type mask. -/
def checkTypeFilter (node : DeviceInterface) (s : WatchSettings) : Bool :=
  s.typeFilters.isEmpty || s.typeFilters.any fun filter => node.type &&& filter == filter

/-- `checkVidFilter` (usb-watch-base.cc lines 80-93). -/
def checkVidFilter (node : DeviceInterface) (s : WatchSettings) : Bool :=
  if !s.includeVids.isEmpty && !(s.includeVids.contains node.vid) then false
  else if !s.excludeVids.isEmpty && node.vid != 0 && s.excludeVids.contains node.vid then false
  else true

/-- `checkPidFilter` (usb-watch-base.cc lines 95-108). -/
def checkPidFilter (node : DeviceInterface) (s : WatchSettings) : Bool :=
  if !s.includePids.isEmpty && !(s.includePids.contains node.pid) then false
  else if !s.excludePids.isEmpty && node.pid != 0 && s.excludePids.contains node.pid then false
  else true

/-- `checkDriverFilter` (usb-watch-base.cc lines 110-113). -/
def checkDriverFilter (node : DeviceInterface) (s : WatchSettings) : Bool :=
  s.drivers.isEmpty || s.drivers.contains node.driver

/-- `shouldIncludeDevice` (usb-watch-base.cc lines 115-120). -/
def shouldIncludeDevice (node : DeviceInterface) (s : WatchSettings) : Bool :=
  checkTypeFilter node s && checkVidFilter node s &&
  checkPidFilter node s && checkDriverFilter node s

/-- The classification step of `onUsbInterfaceEnumerated` (usb-watch-base.cc
lines 141-155): the vendor-specific triple maps to HDC / Adb / Fastboot
bits, and the Qualcomm QDL vid/pid pair adds the QDL bit. -/
def classify (newdev : DeviceInterface) : DeviceInterface :=
  let newdev :=
    if newdev.type &&& DeviceTypeUsb != 0 then
      if newdev.usbClass == 0xff then
        if newdev.usbSubClass == 0x50 && newdev.usbProto == 0x01 then
          { newdev with type := newdev.type ||| DeviceTypeHDC }
        else if newdev.usbSubClass == 0x42 && newdev.usbProto == 0x01 then
          { newdev with type := newdev.type ||| DeviceTypeAdb }
        else if newdev.usbSubClass == 0x42 && newdev.usbProto == 0x03 then
          { newdev with type := newdev.type ||| DeviceTypeFastboot }
        else newdev
      else newdev
    else newdev
  if newdev.vid == 0x05C6 && newdev.pid == 0x9008 then
    { newdev with type := newdev.type ||| DeviceTypeQDL }
  else newdev

/-- Erase a key from the cached-interfaces map. -/
def cacheErase (k : String) (m : List (String × DeviceInterface)) :
    List (String × DeviceInterface) :=
  m.filter fun p => p.1 ≠ k

/-- Insert/overwrite a key in the cached-interfaces map. -/
def cacheInsert (k : String) (v : DeviceInterface) (m : List (String × DeviceInterface)) :
    List (String × DeviceInterface) :=
  cacheErase k m ++ [(k, v)]

/-- Trigger (the old header, usb-watch-base.h line 262: a pending node plus
its retry round). -/
structure Trigger where
  node : DeviceInterface
  round : Nat := 0
deriving DecidableEq, Repr

/-- Engine state: `adb_serials_`, `cached_interfaces_`, the worker queue of
`adb_task_`, and the ordered record stream handed to the user callback. -/
structure EngState where
  adbSerials : List String := []
  cached : List (String × DeviceInterface) := []
  queue : List Trigger := []
  emissions : List DeviceInterface := []
deriving DecidableEq, Repr

/-- `onDeviceInterfaceChangedToOn` (usb-watch-base.cc lines 209-216): cache
the record under its identity and emit it. -/
def onDeviceInterfaceChangedToOn (node : DeviceInterface) (st : EngState) : EngState :=
  { st with cached := cacheInsert node.identity node st.cached,
            emissions := st.emissions ++ [node] }

/-- `onUsbInterfaceEnumerated` (usb-watch-base.cc lines 140-177): classify,
filter, stamp the identity digest; a USB-connected-ADB record with the ADB
client enabled is cached and queued for the worker WITHOUT being emitted;
anything else is cached and emitted. -/
def onUsbInterfaceEnumerated (s : WatchSettings) (interface_id : String)
    (newdev0 : DeviceInterface) (st : EngState) : EngState :=
  let newdev := classify newdev0
  if !(shouldIncludeDevice newdev s) then st
  else
    let newdev := { newdev with identity := createUuid interface_id }
    if (newdev.type &&& usbConnectedAdb == usbConnectedAdb) && s.enableAdbClient then
      { st with cached := cacheInsert newdev.identity newdev st.cached,
                queue := st.queue ++ [{ node := newdev, round := 0 }] }
    else
      onDeviceInterfaceChangedToOn newdev st

/-- `onUsbInterfaceOff` (usb-watch-base.cc lines 179-207): look up and erase
the cached record by the digest of the interface id (absent: ignore); mark
it off; for an enabled USB-connected-ADB record queue an off-Trigger and
suppress the emission when no ADB data was ever merged. -/
def onUsbInterfaceOff (s : WatchSettings) (interface_id : String) (st : EngState) : EngState :=
  let uuid := createUuid interface_id
  match st.cached.lookup uuid with
  | none => st
  | some node0 =>
    let st := { st with cached := cacheErase uuid st.cached }
    let node := { node0 with off := true }
    if (node.type &&& usbConnectedAdb == usbConnectedAdb) && s.enableAdbClient then
      let st := { st with queue := st.queue ++ [{ node := node, round := 0 }] }
      if node.device == "" && node.model == "" then st
      else { st with emissions := st.emissions ++ [node] }
    else
      { st with emissions := st.emissions ++ [node] }

/-- DeviceInfo (adb-client.h lines 66-73). -/
structure DeviceInfo where
  serial : String := ""
  state : String := ""
  product : String := ""
  model : String := ""
  device : String := ""
  transportId : Int := 0
deriving DecidableEq, Repr

/-- `merge_adb_info` (usb-watch-base.cc lines 220-225). -/
def merge_adb_info (dst : DeviceInterface) (src : DeviceInfo) : DeviceInterface :=
  { dst with serial := src.serial, product := src.product,
             model := src.model, device := src.device }

/-- Split a character list at every occurrence of `sep` (the group structure
of the anchored remote-serial regex). -/
def splitChar (sep : Char) : List Char → List (List Char)
  | [] => [[]]
  | c :: rest =>
    match splitChar sep rest with
    | [] => [[]]
    | g :: gs => if c = sep then [] :: g :: gs else (c :: g) :: gs

/-- Decimal value of a digit list (std::stoi on a short digit string). -/
def parseDec (l : List Char) : Nat :=
  l.foldl (fun a c => a * 10 + (c.toNat - 48)) 0

/-- A group of 1..3 decimal digits (`\d{1,3}` of re_remote). -/
def octetGroup (g : List Char) : Bool :=
  g.length != 0 && decide (g.length ≤ 3) && g.all Char.isDigit

/-- `isRemoteDevice` (usb-watch-base.cc lines 53-71): full match of
`(\d{1,3}\.\d{1,3}\.\d{1,3}\.\d{1,3}):(\d{1,5})`; on a match returns the ip
group and the port (std::stoi stored through a uint16_t pointer, hence the
reduction modulo 65536). -/
def isRemoteDevice (serial : String) : Option (String × Nat) :=
  match splitChar ':' serial.toList with
  | [ipChars, portChars] =>
    (match splitChar '.' ipChars with
     | [a, b, c, d] =>
       if octetGroup a && octetGroup b && octetGroup c && octetGroup d &&
          portChars.length != 0 && decide (portChars.length ≤ 5) &&
          portChars.all Char.isDigit then
         some (String.mk ipChars, parseDec portChars % 65536)
       else none
     | _ => none)
  | _ => none

/-- MAX_ADB_RETRY_COUNT (usb-watch-base.cc line 42). -/
def MAX_ADB_RETRY_COUNT : Nat := 60

/-- The off-request phase of the worker lambda (usb-watch-base.cc lines
233-238): an off request removes its serial from `adb_serials_`
(std::list::remove erases every equal element) and is cleared. -/
def offPhase (req0 : Option Trigger) (st : EngState) : Option Trigger × EngState :=
  match req0 with
  | some t =>
    if t.node.off then
      (none, { st with adbSerials := st.adbSerials.filter fun x => x ≠ t.node.serial })
    else (some t, st)
  | none => (none, st)

/-- One predicate call of the removal sweep (usb-watch-base.cc lines
250-260): `std::erase_if` over `adb_serials_`; a serial absent from the
snapshot is dropped, and when it is a remote serial the off path is invoked
as a side effect. -/
def sweepStep (s : WatchSettings) (devs : List DeviceInfo)
    (acc : List String × EngState) (serial : String) : List String × EngState :=
  if devs.all (fun d => d.serial ≠ serial) then
    (acc.1, if (isRemoteDevice serial).isSome then onUsbInterfaceOff s serial acc.2
            else acc.2)
  else (acc.1 ++ [serial], acc.2)

/-- One iteration of the addition sweep (usb-watch-base.cc lines 265-291):
an untracked remote serial becomes a remote-ADB arrival emitted inline; an
untracked USB serial is collected into `newly_added` only while a request is
in flight and its serial is empty or matches exactly, the exact match
forcing `transportId = -1`. -/
def addStep (s : WatchSettings) (req : Option Trigger)
    (acc : EngState × List DeviceInfo) (dev : DeviceInfo) : EngState × List DeviceInfo :=
  if acc.1.adbSerials.all (fun serial => serial ≠ dev.serial) then
    match isRemoteDevice dev.serial with
    | some ipport =>
      let rmote := merge_adb_info
        { ip := ipport.1, port := ipport.2,
          identity := createUuid dev.serial, type := remoteAdb } dev
      let st1 := { acc.1 with adbSerials := acc.1.adbSerials ++ [rmote.serial] }
      (if shouldIncludeDevice rmote s then onDeviceInterfaceChangedToOn rmote st1
       else st1, acc.2)
    | none =>
      match req with
      | some t =>
        if t.node.serial == dev.serial || t.node.serial == "" then
          (acc.1, acc.2 ++ [if t.node.serial == dev.serial
                            then { dev with transportId := -1 } else dev])
        else acc
      | none => acc
  else acc

/-- The correlation phase (usb-watch-base.cc lines 293-303): sort the
collected candidates by transportId, merge the first into the pending node,
record its serial and emit through the normal arrival path.
`std::ranges::sort` is modelled by a stable sort on the same key; the claims
do not depend on the order of equal keys. -/
def correlationPhase (req : Option Trigger) (newly_added : List DeviceInfo)
    (st : EngState) : EngState × Option Trigger :=
  if !newly_added.isEmpty then
    match req with
    | some t =>
      let sorted := newly_added.mergeSort fun a b => a.transportId ≤ b.transportId
      let merged := merge_adb_info t.node (sorted.headD {})
      let st := { st with adbSerials := st.adbSerials ++ [merged.serial] }
      (onDeviceInterfaceChangedToOn merged st, (none : Option Trigger))
    | none => (st, req)
  else (st, req)

/-- The bounded conditional re-enqueue (usb-watch-base.cc lines 305-315): a
still-pending request below the 60-round cap is re-queued with its round
incremented, unless a request with the same identity is already queued; at
the cap the request is dropped. -/
def retryPhase (req : Option Trigger) (st : EngState) : EngState :=
  match req with
  | some t =>
    if t.round < MAX_ADB_RETRY_COUNT then
      { st with queue := (TaskThread.push_request_conditional
          { t with round := t.round + 1 }
          (fun r => r.node.identity == t.node.identity) st.queue).2 }
    else st
  | none => st

/-- One invocation of the worker lambda of `createAdbTask` (usb-watch-base.cc
lines 232-316) with popped request `req0` and that wake's
`adb_list_devices` outcome.  Returns the new state and whether the worker
stopped itself (`notify_stop` on a transport failure).  The phases follow
the source blocks in order. -/
def stepAdbTask (s : WatchSettings) (req0 : Option Trigger)
    (devsResult : Except Unit (List DeviceInfo)) (st : EngState) : EngState × Bool :=
  let h := offPhase req0 st
  let req := h.1
  let st := h.2
  match devsResult with
  | .error _ => (st, true)
  | .ok devs =>
    let sweep := st.adbSerials.foldl (sweepStep s devs) ([], st)
    let st := { sweep.2 with adbSerials := sweep.1 }
    let add := devs.foldl (addStep s req) (st, ([] : List DeviceInfo))
    let k := correlationPhase req add.2 add.1
    (retryPhase k.2 k.1, false)

/-- One wake of the periodic worker (task-thread.h lines 126-154): pop the
queue front as the request when the queue is non-empty, then run the lambda.
The initial no-request invocation made by `start` before the loop is the
same as a wake with an empty queue. -/
def runStep (s : WatchSettings) (devsResult : Except Unit (List DeviceInfo))
    (st : EngState) : EngState × Bool :=
  match st.queue with
  | [] => stepAdbTask s none devsResult st
  | t :: ts => stepAdbTask s (some t) devsResult { st with queue := ts }

/-- A run of the worker: one `runStep` per wake, each with that wake's
`adb_list_devices` outcome; a self-stop ends the run. -/
def runWorker (s : WatchSettings) (steps : List (Except Unit (List DeviceInfo)))
    (st : EngState) : EngState :=
  match steps with
  | [] => st
  | d :: rest =>
    let r := runStep s d st
    if r.2 then r.1 else runWorker s rest r.1

end DevWatch

/-! ## Short hash, C implementation (src/short_hash_simple.c)

64-bit arithmetic is `Nat` reduced modulo `2 ^ 64` wherever C wraps.  Shifts
are modelled mathematically; in particular `x >> (64 - n)` for `n = 0`
evaluates to 0 here (the C expression is formally undefined for a shift
count of 64; the usual compiled behaviour differs, but the expression is
identical in both implementations so the comparison is unaffected).
-/

namespace ShortHashC

def M64 : Nat := 18446744073709551616

/-- PRIMES (short_hash_simple.c lines 9-18). -/
def PRIMES : List Nat :=
  [0x9e3779b97f4a7c15, 0xc6a4a7935bd1e995, 0x165667b19e3779f9, 0x85ebca77c2b2ae63,
   0xa54ff53a5f1d36f1, 0x72be5d74f27b8965, 0x3c6ef372fe94f82a, 0x510e527fade682d1]

/-- ROTATIONS (short_hash_simple.c lines 21-23). -/
def ROTATIONS : List Nat :=
  [13, 17, 19, 23, 29, 31, 37, 41, 43, 47, 53, 59, 61, 67, 71, 73]

/-- `rotate_left` (short_hash_simple.c lines 29-31). -/
def rotate_left (x n : Nat) : Nat := ((x <<< n) % M64) ||| (x >>> (64 - n))

/-- `rotate_right` (short_hash_simple.c lines 33-35). -/
def rotate_right (x n : Nat) : Nat := (x >>> n) ||| ((x <<< (64 - n)) % M64)

/-- `mix` (short_hash_simple.c lines 38-59). -/
def mix (x key round : Nat) : Nat :=
  let result := x ^^^ key
  let result := result * PRIMES.getD (round % 8) 0 % M64
  let result := rotate_left result (ROTATIONS.getD (round % 16) 0)
  let result := result ^^^ (result >>> 32)
  let result := result ^^^ (((result <<< 21) % M64) ^^^ (result >>> 17))
  let result := result * PRIMES.getD ((round + 1) % 8) 0 % M64
  let result := rotate_right result (ROTATIONS.getD ((round + 2) % 16) 0)
  let result := result ^^^ (result >>> 13)
  result * 0xff51afd7ed558ccd % M64

/-- The word-extraction loops of `process_block` (short_hash_simple.c lines
63-83): 64-bit words are assembled byte by byte with `|=` of shifted bytes;
a trailing partial word is assembled the same way (that branch is
unreachable at the existing call sites, which always pass 64-byte blocks). -/
def loadWords (block : List Nat) (block_size : Nat) : List Nat :=
  let word_count := if block_size < 64 then block_size / 8 else 8
  let full := (List.range word_count).map fun i =>
    (List.range 8).foldl (fun w j => w ||| (block.getD (i * 8 + j) 0 <<< (j * 8))) 0
  if block_size % 8 ≠ 0 then
    let remaining := block_size % 8
    full ++ [(List.range remaining).foldl
      (fun w j => w ||| (block.getD (word_count * 8 + j) 0 <<< (j * 8))) 0]
  else full

/-- The inner word loop of one round (short_hash_simple.c lines 93-98). -/
def innerLoop (words : List Nat) (counter round : Nat) (temp0 : List Nat) : List Nat :=
  (List.range words.length).foldl
    (fun temp i =>
      let mixed := mix (words.getD i 0) ((counter + i) % M64) round
      let temp := temp.set (i % 4) ((temp.getD (i % 4) 0) ^^^ mixed)
      let temp := temp.set ((i + 1) % 4)
        ((temp.getD ((i + 1) % 4) 0 + rotate_left mixed (i + round)) % M64)
      temp.set ((i + 2) % 4) ((temp.getD ((i + 2) % 4) 0) ^^^ rotate_right mixed (i + round + 1)))
    temp0

/-- The eight mixing rounds of `process_block` (short_hash_simple.c lines
86-105): each round mixes every word into a copy of the state and then
cross-mixes the four lanes. -/
def roundsLoop (words : List Nat) (counter : Nat) (state : List Nat) : List Nat :=
  (List.range 8).foldl
    (fun state round =>
      let temp := innerLoop words counter round state
      [mix (temp.getD 0 0) (temp.getD 1 0) round,
       mix (temp.getD 1 0) (temp.getD 2 0) (round + 1),
       mix (temp.getD 2 0) (temp.getD 3 0) (round + 2),
       mix (temp.getD 3 0) (temp.getD 0 0) (round + 3)])
    state

/-- `process_block` (short_hash_simple.c lines 62-108) on the pair
(state, counter). -/
def process_block (st : List Nat × Nat) (block : List Nat) (block_size : Nat) :
    List Nat × Nat :=
  (roundsLoop (loadWords block block_size) st.2 st.1, st.2 + block_size)

/-- `finalize` (short_hash_simple.c lines 111-131). -/
def finalize (state : List Nat) (counter : Nat) : Nat :=
  let r := (List.range 4).foldl
    (fun result round =>
      let mixed := mix (state.getD round 0) counter round
      let result := result ^^^ mixed
      let result := rotate_left result (ROTATIONS.getD (round * 4) 0)
      (result + mixed * PRIMES.getD (round + 4) 0) % M64)
    0
  let r := r ^^^ (r >>> 33)
  let r := r * 0xff51afd7ed558ccd % M64
  let r := r ^^^ (r >>> 33)
  let r := r * 0xc4ceb9fe1a85ec53 % M64
  r ^^^ (r >>> 33)

/-- The full-block loop of `process_short_input` (short_hash_simple.c lines
162-164). -/
def blocksLoop (data : List Nat) : Nat → Nat → (List Nat × Nat) → (List Nat × Nat)
  | 0, _, st => st
  | fuel + 1, i, st =>
    blocksLoop data fuel (i + 1) (process_block st ((data.drop (i * 64)).take 64) 64)

/-- `process_short_input` (short_hash_simple.c lines 134-188). -/
def process_short_input (data : List Nat) : Nat :=
  let length := data.length
  let st0 := ([PRIMES.getD 0 0, PRIMES.getD 1 0, PRIMES.getD 2 0, PRIMES.getD 3 0],
              (0 : Nat))
  let st :=
    if length < 64 then
      let padded := data ++ (List.range' length (64 - length)).map
        fun i => (length * i + 0x9e) % 256
      process_block st0 padded 64
    else
      let full_blocks := length / 64
      let remaining := length % 64
      let st := blocksLoop data full_blocks 0 st0
      if remaining > 0 then
        let last_block := (data.drop (full_blocks * 64)).take remaining ++
          (List.range' remaining (64 - remaining)).map fun i => ((length + i) * 0x37) % 256
        process_block st last_block 64
      else st
  let state := st.1
  let counter := st.2
  let state := state.set 0 ((state.getD 0 0) ^^^ (length % M64))
  let state := state.set 1 ((state.getD 1 0) ^^^ (counter % M64))
  let state := state.set 2 ((state.getD 2 0) ^^^ (length * 0x1234567890abcdef % M64))
  let state := state.set 3 ((state.getD 3 0) ^^^ (counter * 0xfedcba9876543210 % M64))
  finalize state counter

/-- `short_hash` (short_hash_simple.c lines 191-200): inputs longer than
MAX_INPUT_SIZE = 1024 yield the fixed error value 0xDEADBEEFDEADBEEF. -/
def short_hash (data : List Nat) : Nat :=
  if data.length > 1024 then 0xDEADBEEFDEADBEEF
  else process_short_input data

end ShortHashC

/-! ## Short hash, C++ template implementation (src/device-enumerator/shorthash.h)

Identical arithmetic; the differences against the C file are (a) no input
length guard, (b) whole 64-bit words are loaded with a
`reinterpret_cast<const uint64_t*>` memory read — a little-endian load on
the little-endian hosts the claim assumes — and (c) the trailing-partial-
word branch copies bytes through a `uint64_t*` output iterator, so only the
first remaining byte lands in `last_word` (the further writes are out of
bounds; the branch is unreachable at the existing call sites, which always
pass 64-byte blocks).
-/

namespace ShortHashCpp

def M64 : Nat := 18446744073709551616

/-- PRIMES (shorthash.h lines 11-20). -/
def PRIMES : List Nat :=
  [0x9e3779b97f4a7c15, 0xc6a4a7935bd1e995, 0x165667b19e3779f9, 0x85ebca77c2b2ae63,
   0xa54ff53a5f1d36f1, 0x72be5d74f27b8965, 0x3c6ef372fe94f82a, 0x510e527fade682d1]

/-- ROTATIONS (shorthash.h lines 22-24). -/
def ROTATIONS : List Nat :=
  [13, 17, 19, 23, 29, 31, 37, 41, 43, 47, 53, 59, 61, 67, 71, 73]

/-- `detail::rotate_left` (shorthash.h lines 31-33). -/
def rotate_left (x n : Nat) : Nat := ((x <<< n) % M64) ||| (x >>> (64 - n))

/-- `detail::rotate_right` (shorthash.h lines 35-37). -/
def rotate_right (x n : Nat) : Nat := (x >>> n) ||| ((x <<< (64 - n)) % M64)

/-- `detail::mix` (shorthash.h lines 39-60). -/
def mix (x key round : Nat) : Nat :=
  let result := x ^^^ key
  let result := result * PRIMES.getD (round % 8) 0 % M64
  let result := rotate_left result (ROTATIONS.getD (round % 16) 0)
  let result := result ^^^ (result >>> 32)
  let result := result ^^^ (((result <<< 21) % M64) ^^^ (result >>> 17))
  let result := result * PRIMES.getD ((round + 1) % 8) 0 % M64
  let result := rotate_right result (ROTATIONS.getD ((round + 2) % 16) 0)
  let result := result ^^^ (result >>> 13)
  result * 0xff51afd7ed558ccd % M64

/-- Little-endian value of a byte list (the value a little-endian host reads
through `reinterpret_cast<const uint64_t*>`). -/
def leLoad (bs : List Nat) : Nat := bs.foldr (fun b acc => b + 256 * acc) 0

/-- The word extraction of `detail::process_block` (shorthash.h lines 64-81):
whole words are memory loads; the trailing-partial-word branch keeps only
the first remaining byte (see the header comment of this section). -/
def loadWords (block : List Nat) (block_size : Nat) : List Nat :=
  let word_count := if block_size / 8 > 8 then 8 else block_size / 8
  let full := (List.range word_count).map fun i => leLoad ((block.drop (i * 8)).take 8)
  if block_size % 8 ≠ 0 then
    full ++ [block.getD (block_size - block_size % 8) 0]
  else full

/-- The inner word loop of one round (shorthash.h lines 86-91). -/
def innerLoop (words : List Nat) (counter round : Nat) (temp0 : List Nat) : List Nat :=
  (List.range words.length).foldl
    (fun temp i =>
      let mixed := mix (words.getD i 0) ((counter + i) % M64) round
      let temp := temp.set (i % 4) ((temp.getD (i % 4) 0) ^^^ mixed)
      let temp := temp.set ((i + 1) % 4)
        ((temp.getD ((i + 1) % 4) 0 + rotate_left mixed (i + round)) % M64)
      temp.set ((i + 2) % 4) ((temp.getD ((i + 2) % 4) 0) ^^^ rotate_right mixed (i + round + 1)))
    temp0

/-- The eight mixing rounds of `detail::process_block` (shorthash.h lines
83-97). -/
def roundsLoop (words : List Nat) (counter : Nat) (state : List Nat) : List Nat :=
  (List.range 8).foldl
    (fun state round =>
      let temp := innerLoop words counter round state
      [mix (temp.getD 0 0) (temp.getD 1 0) round,
       mix (temp.getD 1 0) (temp.getD 2 0) (round + 1),
       mix (temp.getD 2 0) (temp.getD 3 0) (round + 2),
       mix (temp.getD 3 0) (temp.getD 0 0) (round + 3)])
    state

/-- `detail::process_block` (shorthash.h lines 62-100); the block size is
`std::distance(first, last)`. -/
def process_block (st : List Nat × Nat) (block : List Nat) : List Nat × Nat :=
  (roundsLoop (loadWords block block.length) st.2 st.1, st.2 + block.length)

/-- `detail::finalize` (shorthash.h lines 102-119). -/
def finalize (state : List Nat) (counter : Nat) : Nat :=
  let r := (List.range 4).foldl
    (fun result round =>
      let mixed := mix (state.getD round 0) counter round
      let result := result ^^^ mixed
      let result := rotate_left result (ROTATIONS.getD (round * 4) 0)
      (result + mixed * PRIMES.getD (round + 4) 0) % M64)
    0
  let r := r ^^^ (r >>> 33)
  let r := r * 0xff51afd7ed558ccd % M64
  let r := r ^^^ (r >>> 33)
  let r := r * 0xc4ceb9fe1a85ec53 % M64
  r ^^^ (r >>> 33)

/-- The full-block loop of `hash` (shorthash.h lines 141-143). -/
def blocksLoop (data : List Nat) : Nat → Nat → (List Nat × Nat) → (List Nat × Nat)
  | 0, _, st => st
  | fuel + 1, i, st =>
    blocksLoop data fuel (i + 1) (process_block st ((data.drop (i * 64)).take 64))

/-- `shorthash::hash` (shorthash.h lines 123-163): no input length guard. -/
def hash (data : List Nat) : Nat :=
  let length := data.length
  let st0 := ([PRIMES.getD 0 0, PRIMES.getD 1 0, PRIMES.getD 2 0, PRIMES.getD 3 0],
              (0 : Nat))
  let st :=
    if length < 64 then
      let padded := data ++ (List.range' length (64 - length)).map
        fun i => (length * i + 0x9e) % 256
      process_block st0 padded
    else
      let full_blocks := length / 64
      let remaining := length % 64
      let st := blocksLoop data full_blocks 0 st0
      if remaining > 0 then
        let last_block := (data.drop (full_blocks * 64)).take remaining ++
          (List.range' remaining (64 - remaining)).map fun i => ((length + i) * 0x37) % 256
        process_block st last_block
      else st
  let state := st.1
  let counter := st.2
  let state := state.set 0 ((state.getD 0 0) ^^^ (length % M64))
  let state := state.set 1 ((state.getD 1 0) ^^^ (counter % M64))
  let state := state.set 2 ((state.getD 2 0) ^^^ (length * 0x1234567890abcdef % M64))
  let state := state.set 3 ((state.getD 3 0) ^^^ (counter * 0xfedcba9876543210 % M64))
  finalize state counter

end ShortHashCpp

/-! ## Theorems -/

section Proofs

open AdbProto DevWatch SyncProto

/-- The scan loop of `push_request_conditional` rebuilds the queue unchanged
and computes whether any entry satisfies the predicate. -/
theorem TaskThread.scan_foldl {α : Type} (pred : α → Bool) :
    ∀ (q : List α) (d : Bool) (acc : List α),
      q.foldl (TaskThread.scanStep pred) (d, acc) = (d || q.any pred, acc ++ q) := by
  intro q
  induction q with
  | nil => intro d acc; simp
  | cons r q ih =>
    intro d acc
    simp only [List.foldl_cons, TaskThread.scanStep, List.any_cons]
    rw [ih]
    cases d <;> simp [Bool.or_assoc]

/-- C9: `push_request_conditional` drops the new request and leaves the queue
unchanged exactly when some already-queued entry satisfies the predicate,
and otherwise appends the new request at the tail, preserving the relative
order of all existing entries, returning true. -/
theorem C9_push_request_conditional {α : Type} (req : α) (pred : α → Bool) (queue : List α) :
    TaskThread.push_request_conditional req pred queue =
      if queue.any pred then (false, queue) else (true, queue ++ [req]) := by
  unfold TaskThread.push_request_conditional
  rw [TaskThread.scan_foldl]
  cases h : queue.any pred <;> simp [h]

/-- C8: when `co_remount` is called without an explicit override and the
feature set lacks `remount_shell`, the local `bool remount_shell` is never
assigned, so the subsequent branch reads an uninitialized value and the
service selection is undefined (`none`) — the legacy `remount:<args>`
service the spec prescribes is not determinately issued. -/
theorem C8_remount_uninitialized (features : List String) (args : String)
    (h : features.contains "remount_shell" = false) :
    Remount.coRemountService none features args = none := by
  unfold Remount.coRemountService
  rw [h]
  simp

/-- C8 witness: the failing input — no override, a feature list without
`remount_shell` (here `["shell_v2"]`). -/
theorem C8_witness :
    (["shell_v2"] : List String).contains "remount_shell" = false ∧
      Remount.coRemountService none ["shell_v2"] "" = none :=
  ⟨by decide, C8_remount_uninitialized ["shell_v2"] "" (by decide)⟩

/-- C4: with auto-launch ENABLED and the connection still failing after the
one permitted server-launch attempt, `co_query` (and `co_command_query`)
return an empty string instead of failing with a ConnectionError — the
`if (!option.launchServerIfNeed)` in the catch handler has an empty body, so
the handler swallows the error in every case.  The second and third
conjuncts show the same swallowing with auto-launch disabled (the behaviour
the claim correctly describes). -/
theorem C4_query_swallows_always :
    (coQuery ⟨false, false, true⟩ false { launchServerIfNeed := true } (.ok "x".toList)).1
        = .ok [] ∧
    (coQuery ⟨false, false, true⟩ false { launchServerIfNeed := false } (.ok "x".toList)).1
        = .ok [] ∧
    (coCommandQuery ⟨false, false, true⟩ false "version".toList { launchServerIfNeed := true }
        (.ok "x".toList)).1 = .ok [] := by
  refine ⟨rfl, rfl, rfl⟩

/-- C7 (amended): `co_sync_list` returns every well-formed streamed entry in
order, verbatim — entries named "." and ".." are NOT elided (the only
elision in the client is in the recursive-pull list building,
`remote_build_list`). -/
theorem C7_sync_list_verbatim (v2 : Bool) (pre : List DentRaw) (d0 : DentRaw)
    (post : List DentRaw) (hdone : d0.id = ID_DONE)
    (hpre : ∀ d ∈ pre, d.id = (if v2 then ID_DENT_V2 else ID_DENT_V1) ∧ d.name.length ≤ 255) :
    co_sync_list v2 (pre ++ d0 :: post) = .ok (pre.map toItem) := by
  induction pre with
  | nil =>
    simp [co_sync_list, sync_finish_ls, hdone]
  | cons d pre ih =>
    have hd := hpre d (by simp)
    have hne : (if v2 = true then ID_DENT_V2 else ID_DENT_V1) ≠ ID_DONE := by
      cases v2 <;> decide
    have hrest : ∀ x ∈ pre, x.id = (if v2 then ID_DENT_V2 else ID_DENT_V1) ∧
        x.name.length ≤ 255 := fun x hx => hpre x (by simp [hx])
    have := ih hrest
    simp only [co_sync_list] at this ⊢
    simp [sync_finish_ls, hne, hd.1, Nat.not_lt.mpr hd.2, this, toItem, Except.map]

/-- C7 witness: a stream containing a "." entry; it survives into the
returned list. -/
theorem C7_witness :
    co_sync_list false
        [⟨ID_DENT_V1, 1, 2, 3, ".".toList⟩, ⟨ID_DENT_V1, 4, 5, 6, "x".toList⟩,
         ⟨ID_DONE, 0, 0, 0, []⟩] =
      .ok [⟨".".toList, 1, 2, 3⟩, ⟨"x".toList, 4, 5, 6⟩] := by
  have h := C7_sync_list_verbatim false
    [⟨ID_DENT_V1, 1, 2, 3, ".".toList⟩, ⟨ID_DENT_V1, 4, 5, 6, "x".toList⟩]
    ⟨ID_DONE, 0, 0, 0, []⟩ [] (by decide) (by decide)
  simpa [toItem] using h

/-- C7 counterexample: a DENT stream carrying "." and ".." entries — the list
returned by `co_sync_list` contains both, contradicting the claimed
elision. -/
theorem C7_counterexample :
    co_sync_list false
        [⟨ID_DENT_V1, 1, 2, 3, ".".toList⟩, ⟨ID_DENT_V1, 1, 2, 3, "..".toList⟩,
         ⟨ID_DONE, 0, 0, 0, []⟩] =
      .ok [⟨".".toList, 1, 2, 3⟩, ⟨"..".toList, 1, 2, 3⟩] := by
  rfl

/-- C3 (amended): the waiter match predicate succeeds on the type field when
the target's type is None (0) or the two type masks MERELY INTERSECT (share
at least one bit — not the claimed subset check), and succeeds on a
non-empty target identity exactly when it equals one of the candidate's
identity, devpath, hub, serial, ip or driver; the remaining clauses are the
empty/zero/negative dont-care comparisons. -/
theorem C3_test_match_characterization (t i : DeviceInterface) :
    test_match t i = true ↔
      (t.off = i.off ∧
       (t.type = 0 ∨ t.type &&& i.type ≠ 0) ∧
       (t.devpath = "" ∨ t.devpath = i.devpath) ∧
       (t.hub = "" ∨ t.hub = i.hub) ∧
       (t.serial = "" ∨ t.serial = i.serial) ∧
       (t.ip = "" ∨ t.ip = i.ip) ∧
       (t.driver = "" ∨ t.driver = i.driver) ∧
       (t.port = 0 ∨ t.port = i.port) ∧
       (t.vid = 0 ∨ t.vid = i.vid) ∧
       (t.pid = 0 ∨ t.pid = i.pid) ∧
       (t.usbClass = 0 ∨ t.usbClass = i.usbClass) ∧
       (t.usbSubClass = 0 ∨ t.usbSubClass = i.usbSubClass) ∧
       (t.usbProto = 0 ∨ t.usbProto = i.usbProto) ∧
       (t.usbIf < 0 ∨ t.usbIf = i.usbIf) ∧
       (t.identity = "" ∨ (t.identity = i.identity ∨ t.identity = i.devpath ∨
                           t.identity = i.hub ∨ t.identity = i.serial ∨
                           t.identity = i.ip ∨ t.identity = i.driver))) := by
  simp [test_match, Bool.and_eq_true, Bool.or_eq_true, beq_iff_eq, bne_iff_ne,
        decide_eq_true_eq, ne_eq, and_assoc, or_assoc]

/-- C3 counterexample: a target whose type mask (Usb|Adb = 9) is NOT a subset
of the candidate's (Usb = 1) still matches, because the code tests mere
intersection of the masks. -/
theorem C3_counterexample :
    test_match { type := 9 } { type := 1 } = true ∧
      ({ type := 9 } : DeviceInterface).type ≠ 0 ∧
      ¬(({ type := 9 } : DeviceInterface).type &&& ({ type := 1 } : DeviceInterface).type
          = ({ type := 9 } : DeviceInterface).type) := by
  decide

end Proofs

section Proofs2

open AdbProto

/-- C6: the selector sent by `switch_socket_transport` is the one predicted
by the fixed precedence transport-id > serial > transport kind, and after
the status exactly 8 little-endian bytes are read if and only if the
emitted selector is not the `host:transport-id:` form. -/
theorem C6_transport_selector (o : TransportOption) :
    switchSocketTransport o =
      [ProtoAct.send (specSelector o), ProtoAct.readStatus] ++
        (if selectorIsTransportId (specSelector o) then [] else [ProtoAct.readLE8]) := by
  obtain ⟨srv, prt, ser, tt, tid, ln⟩ := o
  cases tid with
  | some n => rfl
  | none =>
    by_cases hs : ser = ""
    · subst hs
      cases tt <;> rfl
    · simp only [switchSocketTransport, specSelector]
      rw [if_pos hs, if_pos hs]
      rfl

end Proofs2

section Proofs3

open AdbProto

/-- With enough fuel, the base-16 digits of `n` decode back to `n`. -/
theorem hexDigitsRev_ofDigits :
    ∀ fuel n, n < 16 ^ fuel → ofDigitsLE (hexDigitsRev fuel n) = n := by
  intro fuel
  induction fuel with
  | zero =>
    intro n h
    simp only [pow_zero, Nat.lt_one_iff] at h
    subst h; rfl
  | succ fuel ih =>
    intro n h
    by_cases h0 : n = 0
    · subst h0; rfl
    · rw [hexDigitsRev, if_neg h0]
      have hdiv : n / 16 < 16 ^ fuel := by
        rw [Nat.div_lt_iff_lt_mul (by norm_num)]
        calc n < 16 ^ (fuel + 1) := h
        _ = 16 ^ fuel * 16 := by ring
      rw [ofDigitsLE, ih _ hdiv, Nat.mod_add_div]

/-- `n < 16 ^ k` has at most `k` base-16 digits, whatever the fuel. -/
theorem hexDigitsRev_length :
    ∀ fuel k n, n < 16 ^ k → (hexDigitsRev fuel n).length ≤ k := by
  intro fuel
  induction fuel with
  | zero => intro k n _; simp [hexDigitsRev]
  | succ fuel ih =>
    intro k n h
    by_cases h0 : n = 0
    · subst h0; simp [hexDigitsRev]
    · rw [hexDigitsRev, if_neg h0]
      match k with
      | 0 => simp only [pow_zero, Nat.lt_one_iff] at h; omega
      | k + 1 =>
        have hdiv : n / 16 < 16 ^ k := by
          rw [Nat.div_lt_iff_lt_mul (by norm_num)]
          calc n < 16 ^ (k + 1) := h
          _ = 16 ^ k * 16 := by ring
        have := ih k (n / 16) hdiv
        simp only [List.length_cons]
        omega

/-- Every base-16 digit produced is below 16. -/
theorem hexDigitsRev_lt : ∀ fuel n, ∀ d ∈ hexDigitsRev fuel n, d < 16 := by
  intro fuel
  induction fuel with
  | zero => intro n d hd; simp [hexDigitsRev] at hd
  | succ fuel ih =>
    intro n d hd
    by_cases h0 : n = 0
    · subst h0; simp [hexDigitsRev] at hd
    · rw [hexDigitsRev, if_neg h0] at hd
      rcases List.mem_cons.mp hd with h | h
      · subst h; exact Nat.mod_lt _ (by norm_num)
      · exact ih _ _ h

/-- The hex alphabet round-trips through encode/parse. -/
theorem hexVal_hexChar (d : Nat) (h : d < 16) : hexVal (hexChar d) = some d := by
  interval_cases d <;> rfl

/-- Parsing the rendering of a big-endian digit list accumulates its value. -/
theorem parseHexAcc_map :
    ∀ (M : List Nat) (acc : Nat), (∀ d ∈ M, d < 16) →
      parseHexAcc acc (M.map hexChar) = some (M.foldl (fun a d => a * 16 + d) acc) := by
  intro M
  induction M with
  | nil => intro acc _; rfl
  | cons d M ih =>
    intro acc hb
    have hd : d < 16 := hb d (by simp)
    simp only [List.map_cons, parseHexAcc, hexVal_hexChar d hd, List.foldl_cons]
    exact ih _ fun x hx => hb x (by simp [hx])

/-- Big-endian accumulation over the reversed digit list computes the
little-endian value. -/
theorem foldl_reverse_ofDigits :
    ∀ (L : List Nat) (acc : Nat),
      (L.reverse).foldl (fun a d => a * 16 + d) acc = acc * 16 ^ L.length + ofDigitsLE L := by
  intro L
  induction L with
  | nil => intro acc; simp [ofDigitsLE]
  | cons d L ih =>
    intro acc
    simp only [List.reverse_cons, List.foldl_append, ih, List.foldl_cons, List.foldl_nil,
      ofDigitsLE, List.length_cons]
    ring

/-- Leading zero characters do not change a parse started at accumulator 0. -/
theorem parseHexAcc_replicate_zero :
    ∀ (k : Nat) (rest : List Char),
      parseHexAcc 0 (List.replicate k '0' ++ rest) = parseHexAcc 0 rest := by
  intro k
  induction k with
  | zero => intro rest; rfl
  | succ k ih =>
    intro rest
    have h0 : hexVal '0' = some 0 := rfl
    simp only [List.replicate_succ, List.cons_append, parseHexAcc, h0]
    exact ih rest

/-- Decoding the `"%04x"` rendering of a length recovers the length. -/
theorem parseHex_formatHex4 (n : Nat) : parseHexAcc 0 (formatHex4 n) = some n := by
  unfold formatHex4
  rw [parseHexAcc_replicate_zero]
  unfold hexChars
  by_cases h : n = 0
  · subst h; rfl
  · rw [if_neg h]
    rw [parseHexAcc_map _ _ fun d hd => hexDigitsRev_lt n n d (List.mem_reverse.mp hd)]
    rw [foldl_reverse_ofDigits]
    rw [hexDigitsRev_ofDigits n n (Nat.lt_pow_self (by norm_num) n)]
    simp

/-- For lengths below 0x10000 the `"%04x"` prefix is exactly 4 characters. -/
theorem formatHex4_length (n : Nat) (h : n ≤ 65535) : (formatHex4 n).length = 4 := by
  unfold formatHex4 hexChars
  by_cases h0 : n = 0
  · subst h0; rfl
  · rw [if_neg h0]
    have hlen : (hexDigitsRev n n).length ≤ 4 :=
      hexDigitsRev_length n 4 n (by norm_num; omega)
    simp only [List.length_append, List.length_replicate, List.length_map,
      List.length_reverse]
    omega

/-- C5 (amended): the frame round-trips for every payload of length at most
0xFFFF = 65535 (the capacity of the 4-hex-digit prefix the decoder reads);
the payload size is first truncated to 32 bits (`unsigned int length`), and
payloads whose TRUNCATED length exceeds 2^20 - 4 fail with the protocol
error "message too big" before anything is transmitted; at |s| = 2^32 the
truncated length wraps to 0, the check passes, and the mis-framed
"0000"-prefixed frame is transmitted, which the decoder reads back as the
empty payload.  (For lengths in [65536, 2^20 - 4] the encoder emits a
5-digit prefix which the decoder misparses — see the counterexample.) -/
theorem C5_protocol_string_roundtrip :
    (∀ s : List Char, s.length ≤ 65535 →
      ∃ frame, sendProtocolString s = .ok frame ∧ readProtocolString frame = some s) ∧
    (∀ s : List Char, s.length % 2 ^ 32 > 2 ^ 20 - 4 →
      sendProtocolString s = .error "message too big") ∧
    (∀ s : List Char, s.length = 2 ^ 32 →
      sendProtocolString s = .ok (['0', '0', '0', '0'] ++ s) ∧
      readProtocolString (['0', '0', '0', '0'] ++ s) = some []) := by
  refine ⟨?_, ?_, ?_⟩
  · intro s hs
    have hmod : s.length % 2 ^ 32 = s.length :=
      Nat.mod_eq_of_lt (lt_of_le_of_lt hs (by norm_num))
    refine ⟨formatHex4 s.length ++ s, ?_, ?_⟩
    · unfold sendProtocolString MAX_PAYLOAD
      dsimp only
      rw [hmod, if_neg (by omega)]
    · have hlen4 := formatHex4_length s.length hs
      have htake : (formatHex4 s.length ++ s).take 4 = formatHex4 s.length := by
        rw [← hlen4, List.take_left]
      have hdrop : (formatHex4 s.length ++ s).drop 4 = s := by
        rw [← hlen4, List.drop_left]
      unfold readProtocolString
      rw [if_neg (by simp [hlen4]), htake, parseHex_formatHex4, hdrop]
      simp
  · intro s hs
    have h20 : (2 : Nat) ^ 20 = 1048576 := by norm_num
    rw [h20] at hs
    unfold sendProtocolString MAX_PAYLOAD
    dsimp only
    rw [if_pos (by omega)]
  · intro s hlen
    constructor
    · unfold sendProtocolString MAX_PAYLOAD
      dsimp only
      rw [hlen, show (2 : Nat) ^ 32 % 2 ^ 32 = 0 from by norm_num]
      rw [if_neg (by norm_num)]
      rfl
    · have htake : ((['0', '0', '0', '0'] : List Char) ++ s).take 4 =
          ['0', '0', '0', '0'] := by
        rw [show (4 : Nat) = (['0', '0', '0', '0'] : List Char).length from rfl,
            List.take_left]
      have hdrop : ((['0', '0', '0', '0'] : List Char) ++ s).drop 4 = s := by
        rw [show (4 : Nat) = (['0', '0', '0', '0'] : List Char).length from rfl,
            List.drop_left]
      have hparse : parseHexAcc 0 ['0', '0', '0', '0'] = some 0 := rfl
      unfold readProtocolString
      rw [if_neg (by simp only [List.length_append, List.length_cons, List.length_nil]; omega)]
      rw [htake, hparse]
      show (if ((['0', '0', '0', '0'] ++ s).drop 4).length < 0 then none
            else some (((['0', '0', '0', '0'] ++ s).drop 4).take 0)) = some []
      rw [hdrop, if_neg (by omega)]
      rfl

/-- C5 witness: a concrete 2-byte payload round-trips, a payload of
2^20 - 3 bytes is rejected, and a payload of 2^32 bytes wraps to a "0000"
prefix and is transmitted. -/
theorem C5_witness :
    (∃ frame, sendProtocolString "ab".toList = .ok frame ∧
      readProtocolString frame = some "ab".toList) ∧
    sendProtocolString (List.replicate 1048573 'a') = .error "message too big" ∧
    sendProtocolString (List.replicate (2 ^ 32) 'a')
      = .ok (['0', '0', '0', '0'] ++ List.replicate (2 ^ 32) 'a') :=
  ⟨C5_protocol_string_roundtrip.1 "ab".toList (by decide),
   C5_protocol_string_roundtrip.2.1 (List.replicate 1048573 'a')
     (by rw [List.length_replicate]; decide),
   (C5_protocol_string_roundtrip.2.2 (List.replicate (2 ^ 32) 'a')
     (by rw [List.length_replicate])).1⟩

/-- C5 counterexample: a payload of exactly 0x10000 = 65536 bytes is within
the claimed bound 2^20 - 4, is accepted by `send_protocol_string`, but its
frame carries the 5-character prefix "10000"; `read_protocol_string` reads
only "1000", takes 0x1000 = 4096 bytes, and does not return the original
payload. -/
theorem C5_counterexample :
    ∃ frame, sendProtocolString (List.replicate 65536 'a') = .ok frame ∧
      readProtocolString frame ≠ some (List.replicate 65536 'a') := by
  have hrlen : (List.replicate 65536 'a').length = 65536 := List.length_replicate _ _
  refine ⟨['1', '0', '0', '0', '0'] ++ List.replicate 65536 'a', ?_, ?_⟩
  · unfold sendProtocolString MAX_PAYLOAD
    dsimp only
    rw [hrlen, show (65536 : Nat) % 2 ^ 32 = 65536 from by norm_num]
    rw [if_neg (by decide)]
    rfl
  · have htake : ((['1', '0', '0', '0', '0'] : List Char) ++ List.replicate 65536 'a').take 4 =
        ['1', '0', '0', '0'] := rfl
    have hdrop : ((['1', '0', '0', '0', '0'] : List Char) ++ List.replicate 65536 'a').drop 4 =
        '0' :: List.replicate 65536 'a' := rfl
    have hparse : parseHexAcc 0 ['1', '0', '0', '0'] = some 4096 := rfl
    unfold readProtocolString
    rw [if_neg (by rw [List.length_append, List.length_replicate]; decide)]
    rw [htake, hparse]
    show (if ((['1', '0', '0', '0', '0'] ++ List.replicate 65536 'a').drop 4).length < 4096
          then none
          else some (((['1', '0', '0', '0', '0'] ++ List.replicate 65536 'a').drop 4).take 4096))
        ≠ some (List.replicate 65536 'a')
    rw [hdrop]
    rw [if_neg (by rw [List.length_cons, List.length_replicate]; decide)]
    have hlen : (('0' :: List.replicate 65536 'a').take 4096).length = 4096 := by
      rw [List.length_take, List.length_cons, List.length_replicate]
      omega
    intro hcontra
    rw [Option.some.injEq] at hcontra
    rw [hcontra, List.length_replicate] at hlen
    exact absurd hlen (by decide)

end Proofs3

section Proofs4

open AdbProto DevWatch

/-- One SHA-256 round always yields an 8-word state. -/
theorem sha_round_length (st : List Nat) (kw : Nat × Nat) :
    (Sha256.round st kw).length = 8 := by
  simp [Sha256.round]

/-- Folding rounds over a non-empty schedule yields an 8-word state. -/
theorem sha_foldl_round_length :
    ∀ (l : List (Nat × Nat)) (h : List Nat), l ≠ [] → (l.foldl Sha256.round h).length = 8 := by
  intro l
  induction l with
  | nil => intro h hne; exact absurd rfl hne
  | cons a l ih =>
    intro h _
    by_cases hl : l = []
    · subst hl; simp [sha_round_length]
    · simp only [List.foldl_cons]
      exact ih _ hl

/-- The message-schedule extension adds exactly `k` words. -/
theorem sha_extend_length : ∀ (k : Nat) (w : List Nat),
    (Sha256.extend w k).length = w.length + k := by
  intro k
  induction k with
  | zero => intro w; rfl
  | succ k ih =>
    intro w
    rw [Sha256.extend, ih]
    simp
    omega

/-- Compression preserves the 8-word state shape. -/
theorem sha_compress_length (h chunk : List Nat) (hh : h.length = 8) :
    (Sha256.compress h chunk).length = 8 := by
  unfold Sha256.compress
  have hw : (Sha256.extend (Sha256.toWordsBE chunk) 48).length =
      (Sha256.toWordsBE chunk).length + 48 := sha_extend_length _ _
  have hzip : (Sha256.K.zip (Sha256.extend (Sha256.toWordsBE chunk) 48)) ≠ [] := by
    intro hcontra
    have := congrArg List.length hcontra
    simp [List.length_zip, hw, Sha256.K] at this
  have hst := sha_foldl_round_length _ h hzip
  simp [List.length_zip, hh, hst]

/-- Folding compression over any chunk list preserves the 8-word shape. -/
theorem sha_foldl_compress_length :
    ∀ (cl : List (List Nat)) (h : List Nat), h.length = 8 →
      (cl.foldl Sha256.compress h).length = 8 := by
  intro cl
  induction cl with
  | nil => intro h hh; exact hh
  | cons c cl ih =>
    intro h hh
    exact ih _ (sha_compress_length _ _ hh)

/-- Serializing words as 4 bytes each quadruples the length. -/
theorem flatMap_words_length (f g j k : Nat → Nat) :
    ∀ (l : List Nat), (l.flatMap fun w => [f w, g w, j w, k w]).length = 4 * l.length := by
  intro l
  induction l with
  | nil => rfl
  | cons w l ih => simp [List.flatMap_cons, ih]; ring

/-- The SHA-256 digest is always 32 bytes. -/
theorem sha256_length (msg : List Nat) : (Sha256.sha256 msg).length = 32 := by
  unfold Sha256.sha256
  rw [flatMap_words_length]
  rw [sha_foldl_compress_length _ _ (by rfl)]

/-- Hex-encoding bytes doubles the length. -/
theorem flatMap_hex_length :
    ∀ (bs : List Nat), (bs.flatMap fun b =>
      [hexChar (b / 16 % 16), hexChar (b % 16)]).length = 2 * bs.length := by
  intro bs
  induction bs with
  | nil => rfl
  | cons b bs ih => simp [List.flatMap_cons, ih]; ring

/-- `createUuid` always yields 32 characters: the hex encoding of the first
16 bytes of the 32-byte SHA-256 digest. -/
theorem createUuid_length (id : String) : (createUuid id).length = 32 := by
  unfold createUuid bytesToHexString
  show (((Sha256.sha256 (id.toList.map Char.toNat)).take 16).flatMap fun b =>
      [hexChar (b / 16 % 16), hexChar (b % 16)]).length = 32
  rw [flatMap_hex_length, List.length_take, sha256_length]
  omega

/-- Every character `hexChar` can produce is in the lowercase hex alphabet. -/
theorem hexChar_mem_alphabet (d : Nat) (h : d < 16) :
    hexChar d ∈ "0123456789abcdef".toList := by
  interval_cases d <;> decide

/-- The hex encoding uses only the lowercase hex alphabet. -/
theorem bytesToHexString_alphabet (bs : List Nat) :
    ∀ c ∈ (bytesToHexString bs).toList, c ∈ "0123456789abcdef".toList := by
  intro c hc
  have : (bytesToHexString bs).toList = bs.flatMap fun b =>
      [hexChar (b / 16 % 16), hexChar (b % 16)] := rfl
  rw [this] at hc
  obtain ⟨b, _, hmem⟩ := List.mem_flatMap.mp hc
  simp only [List.mem_cons, List.not_mem_nil, or_false] at hmem
  rcases hmem with h | h
  · subst h; exact hexChar_mem_alphabet _ (Nat.mod_lt _ (by norm_num))
  · subst h; exact hexChar_mem_alphabet _ (Nat.mod_lt _ (by norm_num))

/-- Looking up the key just inserted finds the inserted record. -/
theorem lookup_cacheInsert (k : String) (v : DeviceInterface)
    (m : List (String × DeviceInterface)) : (cacheInsert k v m).lookup k = some v := by
  unfold cacheInsert cacheErase
  induction m with
  | nil => simp [List.lookup]
  | cons p m ih =>
    by_cases hp : p.1 = k
    · simpa [List.filter_cons, hp] using ih
    · have hbeq : (k == p.1) = false := by
        rw [beq_eq_false_iff_ne]
        exact fun h => hp h.symm
      simp only [List.filter_cons, decide_eq_true_eq]
      rw [if_pos hp]
      simp only [List.cons_append, List.lookup, hbeq]
      exact ih

end Proofs4

section Proofs5

open AdbProto DevWatch

/-- C1 (amended): the identity digest is deterministic per source string and
is a 32-hex-character string — the hex encoding of the first 16 bytes of
the SHA-256 of the source string (not 16 characters as claimed).  The
arrival path stores the record under `createUuid interface_id`, and the
departure path looks up the very same digest of the same OS-supplied id, so
for a filtered-in record an arrival followed by a departure with the same
`interface_id` finds and removes the cached record. -/
theorem cacheErase_insert_nil (k : String) (v : DeviceInterface) :
    cacheErase k (cacheInsert k v []) = [] := by
  simp [cacheInsert, cacheErase, List.filter]

theorem off_after_insert (s : WatchSettings) (ifid : String) (u : String)
    (hu : u = createUuid ifid) (nd : DeviceInterface) (a : List String) (q : List Trigger)
    (e : List DeviceInterface) :
    (onUsbInterfaceOff s ifid
      { adbSerials := a, cached := cacheInsert u nd [], queue := q, emissions := e }).cached
      = [] := by
  subst hu
  unfold onUsbInterfaceOff
  dsimp only
  rw [lookup_cacheInsert]
  dsimp only
  split_ifs <;> exact cacheErase_insert_nil _ _

set_option maxHeartbeats 1000000 in
/-- C1: the emitted identity is `createUuid` of the source string — stamped
identically on the arrival and departure paths for the same interface id or
remote serial — and `createUuid` always yields a 32-hex-character digest
(not the 16 characters the claim states). -/
theorem C1_identity_digest :
    (∀ id : String, (createUuid id).length = 32 ∧
       ∀ c ∈ (createUuid id).toList, c ∈ "0123456789abcdef".toList) ∧
    (∀ (s : WatchSettings) (ifid : String) (dev : DeviceInterface) (st : EngState),
       shouldIncludeDevice (classify dev) s = true →
       ((onUsbInterfaceEnumerated s ifid dev st).cached.lookup (createUuid ifid)).isSome
         = true) ∧
    (∀ (s : WatchSettings) (ifid : String) (dev : DeviceInterface),
       shouldIncludeDevice (classify dev) s = true →
       (onUsbInterfaceOff s ifid (onUsbInterfaceEnumerated s ifid dev {})).cached = []) := by
  refine ⟨fun id => ⟨createUuid_length id, bytesToHexString_alphabet _⟩, ?_, ?_⟩
  · intro s ifid dev st h
    simp only [onUsbInterfaceEnumerated, h, Bool.not_true, Bool.false_eq_true, if_false]
    generalize createUuid ifid = u
    split
    · rw [lookup_cacheInsert]; rfl
    · simp only [onDeviceInterfaceChangedToOn]
      rw [lookup_cacheInsert]; rfl
  · intro s ifid dev h
    simp only [onUsbInterfaceEnumerated, onDeviceInterfaceChangedToOn, h, Bool.not_true,
      Bool.false_eq_true, if_false]
    split
    · apply off_after_insert
      rfl
    · apply off_after_insert
      rfl

end Proofs5

section Proofs6

open AdbProto DevWatch

/-- C1 witness: a concrete interface id and a plain USB record with default
(empty) filter settings — the arrival caches the record under the digest of
the id, and the subsequent departure with the same id finds and removes
it. -/
theorem C1_witness :
    ((onUsbInterfaceEnumerated {} "usb-1.2" { type := 1 } {}).cached.lookup
      (createUuid "usb-1.2")).isSome = true ∧
    (onUsbInterfaceOff {} "usb-1.2"
      (onUsbInterfaceEnumerated {} "usb-1.2" { type := 1 } {})).cached = [] :=
  ⟨C1_identity_digest.2.1 {} "usb-1.2" { type := 1 } {} (by decide),
   C1_identity_digest.2.2 {} "usb-1.2" { type := 1 } (by decide)⟩

/-- C1 counterexample: the identity digest of a concrete interface id has 32
hex characters, not the 16 the claim states. -/
theorem C1_counterexample : (createUuid "usb-1.2").length ≠ 16 := by
  rw [createUuid_length]; decide

end Proofs6

section Proofs7

open AdbProto DevWatch

/-- Classification does not change the off flag. -/
theorem classify_off (d : DeviceInterface) : (classify d).off = d.off := by
  unfold classify
  dsimp only
  split_ifs <;> rfl

/-- A non-off request passes the off phase unchanged. -/
theorem offPhase_not_off (t : Trigger) (st : EngState) (h : t.node.off = false) :
    offPhase (some t) st = (some t, st) := by
  simp [offPhase, h]

/-- The removal sweep leaves the engine state untouched when no tracked
serial is remote (the off side effect fires only for remote serials). -/
theorem sweep_snd (s : WatchSettings) (devs : List DeviceInfo) :
    ∀ (serials : List String) (acc : List String × EngState),
      (∀ x ∈ serials, isRemoteDevice x = none) →
      (serials.foldl (sweepStep s devs) acc).2 = acc.2 := by
  intro serials
  induction serials with
  | nil => intro acc _; rfl
  | cons x xs ih =>
    intro acc hser
    have hx : isRemoteDevice x = none := hser x (by simp)
    have hstep : (sweepStep s devs acc x).2 = acc.2 := by
      unfold sweepStep
      simp only [hx, Option.isSome_none, Bool.false_eq_true, if_false]
      split_ifs <;> rfl
    simp only [List.foldl_cons]
    rw [ih _ fun z hz => hser z (by simp [hz]), hstep]

/-- Changing only the transportId does not change what gets merged. -/
theorem merge_adb_info_transportId (n : DeviceInterface) (d : DeviceInfo) (v : Int) :
    merge_adb_info n { d with transportId := v } = merge_adb_info n d := rfl

/-- The addition sweep over non-remote devices leaves the engine state
untouched and only collects candidates whose merged fields come from the
snapshot. -/
theorem add_fst_mem (s : WatchSettings) (t : Trigger) :
    ∀ (devs : List DeviceInfo) (acc : EngState × List DeviceInfo),
      (∀ d ∈ devs, isRemoteDevice d.serial = none) →
      (devs.foldl (addStep s (some t)) acc).1 = acc.1 ∧
      ∀ x ∈ (devs.foldl (addStep s (some t)) acc).2,
        x ∈ acc.2 ∨ ∃ d ∈ devs, merge_adb_info t.node x = merge_adb_info t.node d := by
  intro devs
  induction devs with
  | nil => intro acc _; exact ⟨rfl, fun x hx => Or.inl hx⟩
  | cons dev devs ih =>
    intro acc hdevs
    have hdev : isRemoteDevice dev.serial = none := hdevs dev (by simp)
    have hrest : ∀ d ∈ devs, isRemoteDevice d.serial = none :=
      fun d hd => hdevs d (by simp [hd])
    have hshape : (addStep s (some t) acc dev).1 = acc.1 ∧
        ((addStep s (some t) acc dev).2 = acc.2 ∨
         ∃ x', (addStep s (some t) acc dev).2 = acc.2 ++ [x'] ∧
           merge_adb_info t.node x' = merge_adb_info t.node dev) := by
      unfold addStep
      rw [hdev]
      split_ifs with h1
      · dsimp only
        by_cases h2 : (t.node.serial == dev.serial || t.node.serial == "") = true
        · rw [if_pos h2]
          refine ⟨rfl, Or.inr ⟨_, rfl, ?_⟩⟩
          split_ifs with h3
          · exact merge_adb_info_transportId t.node dev (-1)
          · rfl
        · rw [if_neg h2]
          exact ⟨rfl, Or.inl rfl⟩
      · exact ⟨rfl, Or.inl rfl⟩
    obtain ⟨ihf, ihm⟩ := ih (addStep s (some t) acc dev) hrest
    refine ⟨by rw [List.foldl_cons, ihf, hshape.1], ?_⟩
    intro x hx
    rcases ihm x (by simpa [List.foldl_cons] using hx) with hmem | ⟨d, hd, heq⟩
    · rcases hshape.2 with hsame | ⟨x', hx', hxeq⟩
      · rw [hsame] at hmem; exact Or.inl hmem
      · rw [hx'] at hmem
        rcases List.mem_append.mp hmem with hmem | hmem
        · exact Or.inl hmem
        · have : x = x' := by simpa using hmem
          subst this
          exact Or.inr ⟨dev, by simp, hxeq⟩
    · exact Or.inr ⟨d, by simp [hd], heq⟩

/-- The retry phase only touches the queue. -/
theorem retryPhase_emissions (r : Option Trigger) (st : EngState) :
    (retryPhase r st).emissions = st.emissions := by
  cases r with
  | none => rfl
  | some t =>
    unfold retryPhase
    dsimp only
    split_ifs <;> rfl

/-- The head of a non-empty sorted candidate list is a candidate. -/
theorem headD_mergeSort_mem (l : List DeviceInfo) (hne : l ≠ []) :
    (l.mergeSort fun a b => a.transportId ≤ b.transportId).headD {} ∈ l := by
  have hlen : (l.mergeSort fun a b => a.transportId ≤ b.transportId).length = l.length :=
    List.length_mergeSort ..
  have hne2 : (l.mergeSort fun a b => a.transportId ≤ b.transportId) ≠ [] := by
    intro hcontra
    rw [hcontra] at hlen
    exact hne (List.length_eq_zero.mp hlen.symm)
  have hmem : (l.mergeSort fun a b => a.transportId ≤ b.transportId).headD {} ∈
      (l.mergeSort fun a b => a.transportId ≤ b.transportId) := by
    cases h : l.mergeSort fun a b => a.transportId ≤ b.transportId with
    | nil => exact absurd h hne2
    | cons a as => simp
  exact (List.mem_mergeSort).mp hmem

end Proofs7

section Proofs8

open AdbProto DevWatch

/-- A wake with no request, no tracked serials and an empty snapshot is a
no-op. -/
theorem step_none_empty (s : WatchSettings) (c : List (String × DeviceInterface))
    (q : List Trigger) (e : List DeviceInterface) :
    stepAdbTask s none (.ok []) { adbSerials := [], cached := c, queue := q, emissions := e }
      = ({ adbSerials := [], cached := c, queue := q, emissions := e }, false) := rfl

/-- A wake that pops a live trigger against an empty snapshot only re-queues
the trigger with its round incremented, or drops it at the cap. -/
theorem step_trigger_empty (s : WatchSettings) (c : List (String × DeviceInterface))
    (e : List DeviceInterface) (nd : DeviceInterface) (r : Nat) (hoff : nd.off = false) :
    stepAdbTask s (some { node := nd, round := r }) (.ok [])
        { adbSerials := [], cached := c, queue := [], emissions := e }
      = ({ adbSerials := [], cached := c,
           queue := if r < 60 then [{ node := nd, round := r + 1 }] else [],
           emissions := e }, false) := by
  unfold stepAdbTask
  rw [offPhase_not_off _ _ hoff]
  dsimp only
  simp only [List.foldl_nil]
  unfold correlationPhase
  simp only [List.isEmpty_nil, Bool.not_true, Bool.false_eq_true, if_false]
  unfold retryPhase
  dsimp only
  unfold MAX_ADB_RETRY_COUNT TaskThread.push_request_conditional
  simp only [List.foldl_nil]
  split_ifs <;> first | rfl | exact (by assumption : False).elim

/-- A run of empty snapshots from an empty-queue state is stationary. -/
theorem runWorker_nil_queue (s : WatchSettings) (c : List (String × DeviceInterface))
    (e : List DeviceInterface) :
    ∀ n, runWorker s (List.replicate n (.ok []))
        { adbSerials := [], cached := c, queue := [], emissions := e }
      = { adbSerials := [], cached := c, queue := [], emissions := e } := by
  intro n
  induction n with
  | zero => rfl
  | succ n ih =>
    rw [List.replicate_succ]
    unfold runWorker
    have hrs : runStep s (.ok [])
        ({ adbSerials := [], cached := c, queue := [], emissions := e } : EngState)
        = ({ adbSerials := [], cached := c, queue := [], emissions := e }, false) := rfl
    simp only [hrs, Bool.false_eq_true, if_false]
    exact ih

/-- A run of `n` empty snapshots from a single-trigger state advances the
round by `n` while the cap is not reached and then drops the trigger; no
emission ever happens. -/
theorem runWorker_trigger (s : WatchSettings) (c : List (String × DeviceInterface))
    (e : List DeviceInterface) (nd : DeviceInterface) (hoff : nd.off = false) :
    ∀ (n r : Nat), r ≤ 60 →
      runWorker s (List.replicate n (.ok []))
          { adbSerials := [], cached := c, queue := [{ node := nd, round := r }],
            emissions := e }
        = if r + n ≤ 60 then
            { adbSerials := [], cached := c, queue := [{ node := nd, round := r + n }],
              emissions := e }
          else
            { adbSerials := [], cached := c, queue := [], emissions := e } := by
  intro n
  induction n with
  | zero =>
    intro r hr
    rw [if_pos (by omega)]
    rfl
  | succ n ih =>
    intro r hr
    rw [List.replicate_succ]
    unfold runWorker
    have hrs : runStep s (.ok [])
        ({ adbSerials := [], cached := c, queue := [{ node := nd, round := r }],
           emissions := e } : EngState)
        = ({ adbSerials := [], cached := c,
             queue := if r < 60 then [{ node := nd, round := r + 1 }] else [],
             emissions := e }, false) := by
      unfold runStep
      dsimp only
      exact step_trigger_empty s c e nd r hoff
    simp only [hrs, Bool.false_eq_true, if_false]
    by_cases hcap : r < 60
    · rw [if_pos hcap]
      rw [ih (r + 1) (by omega)]
      by_cases hle : r + (n + 1) ≤ 60
      · rw [if_pos (by omega : r + 1 + n ≤ 60), if_pos hle]
        have : r + 1 + n = r + (n + 1) := by omega
        rw [this]
      · rw [if_neg (by omega : ¬(r + 1 + n ≤ 60)), if_neg hle]
    · rw [if_neg hcap]
      rw [runWorker_nil_queue]
      rw [if_neg (by omega)]

end Proofs8

section Proofs9

open AdbProto DevWatch

/-- With no candidates the correlation phase is the identity. -/
theorem correlationPhase_nil (r : Option Trigger) (st : EngState) :
    correlationPhase r [] st = (st, r) := rfl

/-- With candidates present the correlation phase merges the head of the
sorted list into the pending node, tracks its serial and emits it. -/
theorem correlationPhase_cons (t : Trigger) (a : DeviceInfo) (as : List DeviceInfo)
    (st : EngState) :
    correlationPhase (some t) (a :: as) st
      = (onDeviceInterfaceChangedToOn
          (merge_adb_info t.node
            (((a :: as).mergeSort fun x y => x.transportId ≤ y.transportId).headD {}))
          { st with adbSerials := st.adbSerials ++
              [(merge_adb_info t.node
                (((a :: as).mergeSort fun x y => x.transportId ≤ y.transportId).headD {})).serial] },
         none) := rfl

/-- With no pending request the retry phase is the identity. -/
theorem retryPhase_none (st : EngState) : retryPhase none st = st := rfl

/-- A qualifying USB-hosted ADB arrival with the client enabled emits
nothing: the record is cached and queued only. -/
theorem enumerated_adb_no_emit (s : WatchSettings) (ifid : String)
    (nd0 : DeviceInterface) (st : EngState)
    (henabled : s.enableAdbClient = true)
    (hadb : ((classify nd0).type &&& usbConnectedAdb == usbConnectedAdb) = true) :
    (onUsbInterfaceEnumerated s ifid nd0 st).emissions = st.emissions := by
  unfold onUsbInterfaceEnumerated
  dsimp only
  split_ifs with h1 h2
  · rfl
  · rfl
  · exfalso
    apply h2
    have htype : ({ classify nd0 with identity := createUuid ifid } : DeviceInterface).type
        = (classify nd0).type := rfl
    rw [htype, hadb, henabled]
    rfl

/-- One worker wake with a pending live request and a fully non-remote
snapshot either emits nothing or emits exactly one record, and any record
it emits carries the ADB-side fields of some snapshot device merged into
the pending node. -/
theorem step_emits_only_merged (s : WatchSettings) (t : Trigger)
    (devs : List DeviceInfo) (st : EngState)
    (hoff : t.node.off = false)
    (hser : ∀ x ∈ st.adbSerials, isRemoteDevice x = none)
    (hdevs : ∀ d ∈ devs, isRemoteDevice d.serial = none) :
    (stepAdbTask s (some t) (.ok devs) st).1.emissions = st.emissions ∨
    ∃ d ∈ devs, (stepAdbTask s (some t) (.ok devs) st).1.emissions
      = st.emissions ++ [merge_adb_info t.node d] := by
  unfold stepAdbTask
  rw [offPhase_not_off t st hoff]
  dsimp only
  have hsw : (st.adbSerials.foldl (sweepStep s devs) ([], st)).2 = st :=
    sweep_snd s devs st.adbSerials ([], st) hser
  rw [hsw]
  obtain ⟨haddf, haddm⟩ := add_fst_mem s t devs
    ({ st with adbSerials := (st.adbSerials.foldl (sweepStep s devs) ([], st)).1 }, []) hdevs
  rw [haddf]
  generalize hA : (devs.foldl (addStep s (some t))
    ({ st with adbSerials := (st.adbSerials.foldl (sweepStep s devs) ([], st)).1 }, [])).2 = l
  rw [hA] at haddm
  have haddm2 : ∀ x ∈ l, ∃ d ∈ devs, merge_adb_info t.node x = merge_adb_info t.node d := by
    intro x hx
    rcases haddm x hx with h0 | hd
    · exact absurd h0 (List.not_mem_nil x)
    · exact hd
  cases l with
  | nil =>
    left
    rw [correlationPhase_nil]
    dsimp only
    rw [retryPhase_emissions]
  | cons a as =>
    have hmem := headD_mergeSort_mem (a :: as) (by simp)
    obtain ⟨d, hd, heq⟩ := haddm2 _ hmem
    right
    refine ⟨d, hd, ?_⟩
    rw [correlationPhase_cons]
    dsimp only
    rw [retryPhase_none]
    unfold onDeviceInterfaceChangedToOn
    dsimp only
    rw [heq]

end Proofs9

section Proofs10

open AdbProto DevWatch

/-- C2: for a USB-hosted interface whose type contains Usb and Adb with the
ADB client enabled, (i) the arrival path emits nothing before the worker
runs — the record is only cached and queued; (ii) a worker wake over a
non-remote snapshot either emits nothing or emits exactly one record whose
serial/product/model/device come from a snapshot device merged into the
pending node; and (iii) when the 60-round retry budget expires with no
matching device (61 wakes over empty snapshots), the trigger is dropped
silently — the final state has no queued trigger and NO emission, refuting
the claimed emission-with-empty-fields at budget expiry. -/
theorem C2_adb_gated_emission (s : WatchSettings) (ifid : String)
    (nd0 : DeviceInterface) (t : Trigger) (devs : List DeviceInfo) (st : EngState)
    (henabled : s.enableAdbClient = true)
    (hadb : ((classify nd0).type &&& usbConnectedAdb == usbConnectedAdb) = true)
    (hoff : t.node.off = false)
    (hser : ∀ x ∈ st.adbSerials, isRemoteDevice x = none)
    (hdevs : ∀ d ∈ devs, isRemoteDevice d.serial = none) :
    (onUsbInterfaceEnumerated s ifid nd0 st).emissions = st.emissions ∧
    ((stepAdbTask s (some t) (.ok devs) st).1.emissions = st.emissions ∨
      ∃ d ∈ devs, (stepAdbTask s (some t) (.ok devs) st).1.emissions
        = st.emissions ++ [merge_adb_info t.node d]) ∧
    ∀ (c : List (String × DeviceInterface)) (e : List DeviceInterface)
      (nd : DeviceInterface), nd.off = false →
      runWorker s (List.replicate 61 (.ok []))
          { adbSerials := [], cached := c, queue := [{ node := nd, round := 0 }],
            emissions := e }
        = { adbSerials := [], cached := c, queue := [], emissions := e } := by
  refine ⟨enumerated_adb_no_emit s ifid nd0 st henabled hadb,
          step_emits_only_merged s t devs st hoff hser hdevs, ?_⟩
  intro c e nd hnd
  rw [runWorker_trigger s c e nd hnd 61 0 (by omega)]
  rw [if_neg (by omega)]

/-- C2 witness: a concrete USB ADB record arrives without any emission, and
a full 61-wake run over empty device snapshots ends with no emission and an
empty queue. -/
theorem C2_witness :
    (onUsbInterfaceEnumerated { enableAdbClient := true } "usb-1"
        { type := usbConnectedAdb } { }).emissions = ({ } : EngState).emissions ∧
    runWorker { enableAdbClient := true } (List.replicate 61 (.ok []))
        { adbSerials := [], cached := [],
          queue := [{ node := { type := usbConnectedAdb }, round := 0 }],
          emissions := [] }
      = { adbSerials := [], cached := [], queue := [], emissions := [] } := by
  have h := C2_adb_gated_emission { enableAdbClient := true } "usb-1"
      { type := usbConnectedAdb } { node := { type := usbConnectedAdb } }
      [{ serial := "x" }] { }
      rfl (by decide) rfl
      (fun x hx => absurd hx (List.not_mem_nil x))
      (by intro d hd; rw [List.mem_singleton] at hd; subst hd; decide)
  exact ⟨h.1, h.2.2 [] [] { type := usbConnectedAdb } rfl⟩

/-- C2 counterexample to the original claim: the queued USB ADB record whose
retry budget expires (61 wakes, all with empty snapshots) is never emitted
at all — the run ends with an empty emission stream and an empty queue, not
with an emission carrying empty fields. -/
theorem C2_counterexample :
    runWorker { enableAdbClient := true } (List.replicate 61 (.ok []))
        { adbSerials := [], cached := [],
          queue := [{ node := { type := DeviceTypeUsb ||| DeviceTypeAdb }, round := 0 }],
          emissions := [] }
      = { adbSerials := [], cached := [], queue := [], emissions := [] } := by
  rw [runWorker_trigger { enableAdbClient := true } [] []
      { type := DeviceTypeUsb ||| DeviceTypeAdb } rfl 61 0 (by omega)]
  rw [if_neg (by omega)]

end Proofs10

section Proofs11

/-- The two implementations share their modulus constant. -/
theorem M64_eq : ShortHashC.M64 = ShortHashCpp.M64 := rfl

/-- The two implementations share their prime table. -/
theorem PRIMES_eq : ShortHashC.PRIMES = ShortHashCpp.PRIMES := rfl

/-- Appending one byte to a little-endian load adds it at the top lane. -/
theorem leLoad_append_singleton (l : List Nat) (b : Nat) :
    ShortHashCpp.leLoad (l ++ [b]) = ShortHashCpp.leLoad l + b * 256 ^ l.length := by
  induction l with
  | nil => simp [ShortHashCpp.leLoad]
  | cons a l ih =>
    have h1 : ShortHashCpp.leLoad (a :: (l ++ [b]))
        = a + 256 * ShortHashCpp.leLoad (l ++ [b]) := rfl
    have h2 : ShortHashCpp.leLoad (a :: l) = a + 256 * ShortHashCpp.leLoad l := rfl
    rw [List.cons_append, h1, ih, h2, List.length_cons]
    ring

/-- A little-endian load of bytes is bounded by 256 to the byte count. -/
theorem leLoad_lt (l : List Nat) (hb : ∀ b ∈ l, b < 256) :
    ShortHashCpp.leLoad l < 256 ^ l.length := by
  induction l with
  | nil => decide
  | cons a l ih =>
    have h1 : ShortHashCpp.leLoad (a :: l) = a + 256 * ShortHashCpp.leLoad l := rfl
    rw [h1, List.length_cons, pow_succ]
    have ha : a < 256 := hb a (by simp)
    have hl : ShortHashCpp.leLoad l < 256 ^ l.length := ih (fun b hbm => hb b (by simp [hbm]))
    calc a + 256 * ShortHashCpp.leLoad l
        < 256 + 256 * ShortHashCpp.leLoad l := by omega
      _ = 256 * (ShortHashCpp.leLoad l + 1) := by ring
      _ ≤ 256 * 256 ^ l.length := Nat.mul_le_mul_left 256 hl
      _ = 256 ^ l.length * 256 := by ring

/-- The byte-by-byte or-shift assembly of the C word loop equals the
little-endian memory load of the same bytes: the lanes are disjoint, so the
ors are additions. -/
theorem orFold_take (bs : List Nat) (hb : ∀ b ∈ bs, b < 256) :
    ∀ n, (List.range n).foldl (fun w j => w ||| (bs.getD j 0 <<< (j * 8))) 0
      = ShortHashCpp.leLoad (bs.take n) := by
  intro n
  induction n with
  | zero => rfl
  | succ n ih =>
    rw [List.range_succ, List.foldl_append, ih]
    simp only [List.foldl_cons, List.foldl_nil]
    by_cases hlt : n < bs.length
    · have hgd : bs.getD n 0 = bs[n] := by
        rw [List.getD_eq_getElem?_getD, List.getElem?_eq_getElem hlt]
        rfl
      have htake : bs.take (n + 1) = bs.take n ++ [bs[n]] := by
        rw [List.take_succ, List.getElem?_eq_getElem hlt]
        rfl
      have hlen : (bs.take n).length = n := by
        rw [List.length_take]
        omega
      have h2 : (256 : Nat) ^ n = 2 ^ (n * 8) := by
        rw [show (256 : Nat) = 2 ^ 8 from rfl, ← pow_mul, Nat.mul_comm 8 n]
      have hlt2 : ShortHashCpp.leLoad (bs.take n) < 2 ^ (n * 8) := by
        have h1 : ShortHashCpp.leLoad (bs.take n) < 256 ^ (bs.take n).length :=
          leLoad_lt _ (fun b hbm => hb b (List.take_subset _ _ hbm))
        rw [hlen, h2] at h1
        exact h1
      have hkey := Nat.mul_add_lt_is_or hlt2 (bs[n])
      rw [htake, hgd, leLoad_append_singleton, hlen, h2, Nat.shiftLeft_eq,
          Nat.lor_comm, Nat.mul_comm (bs[n]) (2 ^ (n * 8)), ← hkey]
      ring
    · have hle : bs.length ≤ n := by omega
      rw [List.take_of_length_le hle, List.take_of_length_le (by omega),
          List.getD_eq_default _ _ hle, Nat.zero_shiftLeft, Nat.or_zero]

/-- One 64-bit word of a block: the C or-shift assembly equals the C++
little-endian load of the same eight bytes. -/
theorem word_eq (block : List Nat) (hb : ∀ b ∈ block, b < 256) (i : Nat) :
    (List.range 8).foldl (fun w j => w ||| (block.getD (i * 8 + j) 0 <<< (j * 8))) 0
      = ShortHashCpp.leLoad ((block.drop (i * 8)).take 8) := by
  have hsw : ∀ (w : Nat), ∀ j ∈ List.range 8,
      w ||| (block.getD (i * 8 + j) 0 <<< (j * 8))
        = w ||| (((block.drop (i * 8)).take 8).getD j 0 <<< (j * 8)) := by
    intro w j hj
    have hj8 : j < 8 := List.mem_range.mp hj
    have hget : ((block.drop (i * 8)).take 8).getD j 0 = block.getD (i * 8 + j) 0 := by
      rw [List.getD_eq_getElem?_getD, List.getD_eq_getElem?_getD,
          List.getElem?_take, if_pos hj8, List.getElem?_drop]
    rw [hget]
  rw [List.foldl_ext
      (fun w j => w ||| (block.getD (i * 8 + j) 0 <<< (j * 8)))
      (fun w j => w ||| (((block.drop (i * 8)).take 8).getD j 0 <<< (j * 8)))
      0 hsw]
  have hlen : ((block.drop (i * 8)).take 8).length ≤ 8 := by
    rw [List.length_take]
    omega
  have hb2 : ∀ b ∈ (block.drop (i * 8)).take 8, b < 256 :=
    fun b hbm => hb b (List.drop_subset _ _ (List.take_subset _ _ hbm))
  rw [orFold_take _ hb2 8, List.take_of_length_le hlen]

/-- On a 64-byte block the two word-extraction routines agree. -/
theorem loadWords64_eq (block : List Nat) (hb : ∀ b ∈ block, b < 256) :
    ShortHashC.loadWords block 64 = ShortHashCpp.loadWords block 64 := by
  have h1 : ShortHashC.loadWords block 64
      = (List.range 8).map fun i =>
          (List.range 8).foldl (fun w j => w ||| (block.getD (i * 8 + j) 0 <<< (j * 8))) 0 :=
    rfl
  have h2 : ShortHashCpp.loadWords block 64
      = (List.range 8).map fun i => ShortHashCpp.leLoad ((block.drop (i * 8)).take 8) := rfl
  rw [h1, h2]
  exact congrArg (fun f => List.map f (List.range 8)) (funext fun i => word_eq block hb i)

/-- On a 64-byte block of bytes the two `process_block` routines agree. -/
theorem process_block_eq (st : List Nat × Nat) (block : List Nat)
    (hb : ∀ b ∈ block, b < 256) (hlen : block.length = 64) :
    ShortHashC.process_block st block 64 = ShortHashCpp.process_block st block := by
  unfold ShortHashC.process_block ShortHashCpp.process_block
  rw [hlen, loadWords64_eq block hb]
  have hr : ShortHashC.roundsLoop = ShortHashCpp.roundsLoop := rfl
  rw [hr]

/-- The two full-block loops agree while every processed block lies inside
the data. -/
theorem blocksLoop_eq (data : List Nat) (hb : ∀ b ∈ data, b < 256) :
    ∀ (fuel i : Nat) (st : List Nat × Nat), (i + fuel) * 64 ≤ data.length →
      ShortHashC.blocksLoop data fuel i st = ShortHashCpp.blocksLoop data fuel i st := by
  intro fuel
  induction fuel with
  | zero => intro i st _; rfl
  | succ fuel ih =>
    intro i st h
    unfold ShortHashC.blocksLoop ShortHashCpp.blocksLoop
    have hchunklen : ((data.drop (i * 64)).take 64).length = 64 := by
      rw [List.length_take, List.length_drop]
      omega
    have hchunkb : ∀ b ∈ (data.drop (i * 64)).take 64, b < 256 :=
      fun b hbm => hb b (List.drop_subset _ _ (List.take_subset _ _ hbm))
    rw [process_block_eq st _ hchunkb hchunklen]
    exact ih (i + 1) _ (by omega)

/-- For any byte sequence the unguarded C pipeline agrees with the C++
template pipeline. -/
theorem process_short_eq (data : List Nat) (hb : ∀ b ∈ data, b < 256) :
    ShortHashC.process_short_input data = ShortHashCpp.hash data := by
  unfold ShortHashC.process_short_input ShortHashCpp.hash
  dsimp only
  have hfin : ShortHashC.finalize = ShortHashCpp.finalize := rfl
  rw [hfin, M64_eq, PRIMES_eq]
  by_cases hsmall : data.length < 64
  · rw [if_pos hsmall, if_pos hsmall]
    rw [process_block_eq]
    · intro b hbm
      rcases List.mem_append.mp hbm with h | h
      · exact hb b h
      · obtain ⟨j, _, rfl⟩ := List.mem_map.mp h
        exact Nat.mod_lt _ (by omega)
    · simp only [List.length_append, List.length_map, List.length_range']
      omega
  · rw [if_neg hsmall, if_neg hsmall]
    rw [blocksLoop_eq data hb]
    · by_cases hrem : data.length % 64 > 0
      · rw [if_pos hrem, if_pos hrem]
        rw [process_block_eq]
        · intro b hbm
          rcases List.mem_append.mp hbm with h | h
          · exact hb b (List.drop_subset _ _ (List.take_subset _ _ h))
          · obtain ⟨j, _, rfl⟩ := List.mem_map.mp h
            exact Nat.mod_lt _ (by omega)
        · simp only [List.length_append, List.length_map, List.length_range',
            List.length_take, List.length_drop]
          omega
      · rw [if_neg hrem, if_neg hrem]
    · omega

end Proofs11

section Proofs12

/-- The C++ full-block loop on zero fuel. -/
theorem blocksLoop_zero (data : List Nat) (i : Nat) (st : List Nat × Nat) :
    ShortHashCpp.blocksLoop data 0 i st = st := rfl

/-- One step of the C++ full-block loop. -/
theorem blocksLoop_succ (data : List Nat) (fuel i : Nat) (st : List Nat × Nat) :
    ShortHashCpp.blocksLoop data (fuel + 1) i st
      = ShortHashCpp.blocksLoop data fuel (i + 1)
          (ShortHashCpp.process_block st ((data.drop (i * 64)).take 64)) := rfl

/-- The C++ full-block loop splits at any block boundary. -/
theorem blocksLoop_add (data : List Nat) :
    ∀ (m n i : Nat) (st : List Nat × Nat),
      ShortHashCpp.blocksLoop data (m + n) i st
        = ShortHashCpp.blocksLoop data n (i + m) (ShortHashCpp.blocksLoop data m i st) := by
  intro m
  induction m with
  | zero =>
    intro n i st
    rw [Nat.zero_add, blocksLoop_zero, Nat.add_zero]
  | succ m ih =>
    intro n i st
    rw [show m + 1 + n = m + n + 1 from by omega]
    rw [blocksLoop_succ data (m + n) i st]
    rw [blocksLoop_succ data m i st]
    rw [ih n (i + 1) (ShortHashCpp.process_block st ((data.drop (i * 64)).take 64))]
    rw [show i + 1 + m = i + (m + 1) from by omega]

set_option maxRecDepth 100000 in
/-- C10: on any byte sequence of at most 1024 bytes the C `short_hash` and
the C++ template `shorthash::hash` agree (little-endian word loads equal the
C byte-assembly); beyond 1024 bytes they diverge: `short_hash` returns the
fixed sentinel 0xDEADBEEFDEADBEEF while `hash` keeps processing — and at
the 1025-zero-byte input `hash` provably differs from the sentinel. -/
theorem C10_short_hash_refinement (data : List Nat) (hb : ∀ b ∈ data, b < 256) :
    (data.length ≤ 1024 → ShortHashC.short_hash data = ShortHashCpp.hash data) ∧
    (data.length > 1024 → ShortHashC.short_hash data = 0xDEADBEEFDEADBEEF) ∧
    ShortHashCpp.hash (List.replicate 1025 0) ≠ 0xDEADBEEFDEADBEEF := by
  refine ⟨?_, ?_, ?_⟩
  · intro h
    unfold ShortHashC.short_hash
    rw [if_neg (by omega)]
    exact process_short_eq data hb
  · intro h
    unfold ShortHashC.short_hash
    rw [if_pos (by omega)]
  · have e1 : ShortHashCpp.blocksLoop (List.replicate 1025 0) 8 0
        ([ShortHashCpp.PRIMES.getD 0 0, ShortHashCpp.PRIMES.getD 1 0,
          ShortHashCpp.PRIMES.getD 2 0, ShortHashCpp.PRIMES.getD 3 0], 0)
        = ([7012036534788340213, 6417003968815542817, 1545602945724021622,
            1767943774878932912], 512) := by decide
    have e2 : ShortHashCpp.blocksLoop (List.replicate 1025 0) 8 8
        ([7012036534788340213, 6417003968815542817, 1545602945724021622,
          1767943774878932912], 512)
        = ([14816265732247168306, 4450562057491973541, 16123595904464309515,
            1113052430540031326], 1024) := by decide
    have hcomp : ShortHashCpp.blocksLoop (List.replicate 1025 0) 16 0
        ([ShortHashCpp.PRIMES.getD 0 0, ShortHashCpp.PRIMES.getD 1 0,
          ShortHashCpp.PRIMES.getD 2 0, ShortHashCpp.PRIMES.getD 3 0], 0)
        = ShortHashCpp.blocksLoop (List.replicate 1025 0) 8 8
            (ShortHashCpp.blocksLoop (List.replicate 1025 0) 8 0
              ([ShortHashCpp.PRIMES.getD 0 0, ShortHashCpp.PRIMES.getD 1 0,
                ShortHashCpp.PRIMES.getD 2 0, ShortHashCpp.PRIMES.getD 3 0], 0)) :=
      blocksLoop_add (List.replicate 1025 0) 8 8 0 _
    unfold ShortHashCpp.hash
    dsimp only
    rw [List.length_replicate]
    rw [if_neg (by omega : ¬(1025 < 64))]
    rw [show (1025 : Nat) / 64 = 16 from rfl, show (1025 : Nat) % 64 = 1 from rfl]
    rw [if_pos (by omega : (1 : Nat) > 0)]
    rw [hcomp, e1, e2]
    decide

/-- C10 witness: the two hashes agree at a concrete 3-byte input, and the C
implementation returns the sentinel at 1025 bytes. -/
theorem C10_witness :
    ShortHashC.short_hash [1, 2, 3] = ShortHashCpp.hash [1, 2, 3] ∧
    ShortHashC.short_hash (List.replicate 1025 0) = 0xDEADBEEFDEADBEEF := by
  have h1 := C10_short_hash_refinement [1, 2, 3] (by decide)
  have h2 := C10_short_hash_refinement (List.replicate 1025 0)
    (fun b hbm => by rw [List.eq_of_mem_replicate hbm]; decide)
  refine ⟨h1.1 (by decide), h2.2.1 ?_⟩
  rw [List.length_replicate]
  decide

end Proofs12
